import Mathlib

/-!
# MoviePolls: the JSON-file backed store (`data_json.go`)

A shallow embedding of the store's tables and operations, followed by the
properties proved about them.

Modelling conventions

* Go's `int` is the 64-bit two's-complement integer: values are kept in `Int`
  and the one arithmetic operation the store performs on identifiers,
  `highest + 1`, wraps around (`wrapInt`). The conversion `int(f)` of a
  `float64` truncates, and gives the smallest `int` out of range.
* Slices are lists (a nil slice and an empty slice are the same list).
  `[]*T` tables are lists of values and an argument passed by pointer is a
  record of its own: the store never compares pointers. The one operation that
  writes through a caller's pointer, `AddOldCycle`, is also given with pointer
  identity (`CycleHeap`, `AddOldCyclePtr`), for the case of a cycle that is
  already stored.
* The `Settings` map is `none` when nil (a read finds nothing, a write panics)
  and otherwise an association list read by first match.
* `j.save()` writes a file. In the operations its outcome is supplied by the
  caller of the model as a function from the state being saved to an optional
  error; `save` and `LoadJson` themselves are given over JSON documents and a
  file (section "Persisting and reloading").
* The reader/writer lock and the `fmt.Printf` log lines are not modelled.
* A failed Go type assertion and a write to a nil map are run-time panics, kept
  as a separate outcome.
-/

namespace moviepoll

/-! ## Data model -/

/-- Go's `time.Time`, kept as an abstract instant. -/
abbrev Time := Int

/-- Modelled from the spec: the `Cycle` record, whose declaration is outside the
available sources ("identifier, start timestamp, end timestamp, flag indicating
whether an end timestamp was explicitly set"); field names as `AddCycle` uses them. -/
structure Cycle where
  Id : Int
  Start : Time
  End : Time
  EndingSet : Bool
deriving DecidableEq, Repr

/-- Modelled from the spec: the `User` record, whose declaration is outside the
available sources ("identifier, name, password hash, password-changed timestamp,
email, notification preferences"); field names as the callers use them. -/
structure User where
  Id : Int
  Name : String
  Password : String
  PassDate : Time
  Email : String
  NotifyCycleEnd : Bool
  NotifyVoteSelection : Bool
deriving DecidableEq, Repr

/-- Modelled from the spec: the resolved `Vote`, whose declaration is outside the
available sources. `findVotes` fills `Movie`, `CycleAdded` and `User`; the
pointer back to the owning movie is kept as that movie's identifier. -/
structure Vote where
  MovieId : Int
  CycleAdded : Option Cycle
  User : Option User
deriving DecidableEq, Repr

/-- Modelled from the spec: the resolved (full form) `Movie`, whose declaration is
outside the available sources; the fields are those `findMovie`, `GetMovie`,
`newJsonMovie` and `AddVote` read or write. -/
structure Movie where
  Id : Int
  Name : String
  Links : List String
  Description : String
  CycleAdded : Option Cycle
  Removed : Bool
  Approved : Bool
  Watched : Option Time
  Poster : String
  Votes : List Vote
deriving DecidableEq, Repr

/-- The storage form of a movie (`type jsonMovie struct`). -/
structure jsonMovie where
  Id : Int
  Name : String
  Links : List String
  Description : String
  CycleAddedId : Int
  Removed : Bool
  Approved : Bool
  Watched : Option Time
  Poster : String
deriving DecidableEq, Repr

/-- The storage form of a vote (`type jsonVote struct`). -/
structure jsonVote where
  UserId : Int
  MovieId : Int
  CycleId : Int
deriving DecidableEq, Repr

/-- The type tag of a configuration entry (`type cfgValType int`). -/
abbrev cfgValType := Int

/-- Tag of a string entry (`iota` = 0). -/
def CVT_STRING : cfgValType := 0

/-- Tag of an integer entry (`iota` = 1). -/
def CVT_INT : cfgValType := 1

/-- Tag of a boolean entry (`iota` = 2). -/
def CVT_BOOL : cfgValType := 2

/-- The dynamic values an `interface{}` field of a configuration entry can hold:
what the setters store (`string`, `int`, `bool`) and what `encoding/json`
decodes into an `interface{}` (`string`, `float64`, `bool`, and anything else).
A `float64` is kept as the rational number it denotes. -/
inductive GoValue where
  | str (s : String)
  | int (n : Int)
  | float64 (q : Rat)
  | bool (b : Bool)
  | other
deriving DecidableEq, Repr

/-- A configuration entry (`type configValue struct`). -/
structure configValue where
  Type_ : cfgValType
  Value : GoValue
deriving DecidableEq, Repr

/-- The store (`type jsonConnector struct`), without its file name and lock.
`Settings` is `none` for a nil map, which is what `LoadJson` leaves when the file
holds no settings, and otherwise the entries of the map, read by first match. -/
structure jsonConnector where
  CurrentCycle : Int
  Cycles : List Cycle
  Movies : List jsonMovie
  Users : List User
  Votes : List jsonVote
  Settings : Option (List (String × configValue))
deriving DecidableEq, Repr

/-- The two failures of `strconv.ParseInt` / `strconv.ParseBool`. -/
inductive NumError where
  | syntaxErr
  | rangeErr
deriving DecidableEq, Repr

/-- The errors the store returns, one constructor per `fmt.Errorf` call site
(its arguments are the formatted values); `io` is an error of `save`. -/
inductive StoreError where
  | movieWithIdNotFound (id : Int)
  | invalidLogin
  | getUserNotFound (id : Int)
  | userExistsId (id : Int)
  | userExistsName (name : String)
  | userNotFound (id : Int)
  | movieNotFound (id : Int)
  | movieWatched
  | movieRemoved
  | settingMissing (key : String)
  | intParse (e : NumError)
  | boolParse (e : NumError)
  | unknownNumberType (key : String)
  | unknownType (t : Int)
  | io (msg : String)
deriving DecidableEq, Repr

/-- The error kinds of the specification's error handling design. -/
inductive ErrorKind where
  | NotFound
  | AlreadyExists
  | InvalidState
  | ParseError
  | IOError
  | Other
deriving DecidableEq, Repr

/-- The kind the specification gives to each error of the store. -/
def StoreError.kind : StoreError → ErrorKind
  | .movieWithIdNotFound _ => .NotFound
  | .invalidLogin => .Other
  | .getUserNotFound _ => .NotFound
  | .userExistsId _ => .AlreadyExists
  | .userExistsName _ => .AlreadyExists
  | .userNotFound _ => .NotFound
  | .movieNotFound _ => .NotFound
  | .movieWatched => .InvalidState
  | .movieRemoved => .InvalidState
  | .settingMissing _ => .NotFound
  | .intParse _ => .ParseError
  | .boolParse _ => .ParseError
  | .unknownNumberType _ => .ParseError
  | .unknownType _ => .Other
  | .io _ => .IOError

/-- The outcome of `j.save()` as a function of the state being written. -/
abbrev SaveFn := jsonConnector → Option StoreError

/-! ## Cycles and identifier assignment -/

/-- `func (j *jsonConnector) currentCycle() *Cycle`. -/
def currentCycle (j : jsonConnector) : Option Cycle :=
  j.Cycles.find? (fun c => j.CurrentCycle == c.Id)

/-- `func (j *jsonConnector) findCycle(id int) *Cycle`. -/
def findCycle (j : jsonConnector) (id : Int) : Option Cycle :=
  j.Cycles.find? (fun c => c.Id == id)

/-- The largest value of Go's `int` on a 64-bit platform, `2 ^ 63 - 1`. -/
def maxInt : Int := 9223372036854775807

/-- The smallest value of Go's `int` on a 64-bit platform, `-2 ^ 63`. -/
def minInt : Int := -9223372036854775808

/-- The value Go's `int` arithmetic gives for a mathematical result `x`: its
two's complement wrap-around into `[-2 ^ 63, 2 ^ 63)`. -/
def wrapInt (x : Int) : Int :=
  (x + 9223372036854775808) % 18446744073709551616 - 9223372036854775808

/-- `func (j *jsonConnector) nextMovieId() int`; `highest + 1` is machine
arithmetic. -/
def nextMovieId (j : jsonConnector) : Int :=
  wrapInt (j.Movies.foldl (fun highest m => if m.Id > highest then m.Id else highest) 0 + 1)

/-- `func (j *jsonConnector) newJsonMovie(movie *Movie) jsonMovie`. -/
def newJsonMovie (j : jsonConnector) (movie : Movie) : jsonMovie :=
  let cycleId : Int :=
    match currentCycle j with
    | some c => c.Id
    | none => 0
  { Id := nextMovieId j
    Name := movie.Name
    Links := movie.Links
    Description := movie.Description
    CycleAddedId := cycleId
    Removed := movie.Removed
    Approved := movie.Approved
    Watched := none
    Poster := movie.Poster }

/-! ## Movies -/

/-- `func (j *jsonConnector) AddMovie(movie *Movie) (int, error)`: the state
after the call, the returned identifier and the returned error. -/
def AddMovie (save : SaveFn) (j : jsonConnector) (movie : Movie) :
    jsonConnector × Int × Option StoreError :=
  let m := newJsonMovie j movie
  let j1 := { j with Movies := j.Movies ++ [m] }
  (j1, m.Id, save j1)

/-- A sequence of `AddMovie` calls, one per element of `ms`, each applied to the
state the previous call left: the final state and the identifiers returned. -/
def addMovieSeq (save : SaveFn) : jsonConnector → List Movie → jsonConnector × List Int
  | j, [] => (j, [])
  | j, movie :: ms =>
    let r := AddMovie save j movie
    let rest := addMovieSeq save r.1 ms
    (rest.1, r.2.1 :: rest.2)

/-- `func (j *jsonConnector) findMovie(id int) *Movie`: the resolved form of the
first record with that identifier. The composite literal sets neither `Watched`
nor `Votes`, which therefore keep their zero values. -/
def findMovie (j : jsonConnector) (id : Int) : Option Movie :=
  match j.Movies.find? (fun m => m.Id == id) with
  | some m =>
    some
      { Id := id
        Name := m.Name
        Description := m.Description
        Removed := m.Removed
        Approved := m.Approved
        CycleAdded := findCycle j m.CycleAddedId
        Links := m.Links
        Poster := m.Poster
        Watched := none
        Votes := [] }
  | none => none

/-- `func (j *jsonConnector) findUser(id int) *User`. -/
def findUser (j : jsonConnector) (id : Int) : Option User :=
  j.Users.find? (fun u => u.Id == id)

/-- `func (j *jsonConnector) findVotes(movie *Movie) []*Vote`. -/
def findVotes (j : jsonConnector) (movie : Movie) : List Vote :=
  (j.Votes.filter (fun v => v.MovieId == movie.Id)).map
    (fun v =>
      { MovieId := movie.Id
        CycleAdded := findCycle j v.CycleId
        User := findUser j v.UserId })

/-- `func (j *jsonConnector) GetMovie(id int) (*Movie, error)`. -/
def GetMovie (j : jsonConnector) (id : Int) : Option Movie × Option StoreError :=
  match findMovie j id with
  | none => (none, some (.movieWithIdNotFound id))
  | some movie => (some { movie with Votes := findVotes j movie }, none)

/-- `func (j *jsonConnector) UpdateMovie(movie *Movie) error`: the loop builds
`newLst`, which is never stored back into `j.Movies`; then the state is saved. -/
def UpdateMovie (save : SaveFn) (j : jsonConnector) (movie : Movie) :
    jsonConnector × Option StoreError :=
  let _newLst : List jsonMovie :=
    j.Movies.map (fun m => if m.Id == movie.Id then newJsonMovie j movie else m)
  (j, save j)

/-! ## Users -/

/-- `func (j *jsonConnector) GetUserCount() int`. -/
def GetUserCount (j : jsonConnector) : Int :=
  j.Users.length

/-- `func (j *jsonConnector) nextUserId() int`. -/
def nextUserId (j : jsonConnector) : Int :=
  wrapInt (j.Users.foldl (fun highest u => if u.Id > highest then u.Id else highest) 0 + 1)

/-- The duplicate scan at the head of `AddUser`: the error of the first stored
user with the same identifier or the same lower-cased name, if any. `lower` is
`strings.ToLower`. -/
def addUserScan (lower : String → String) (user : User) : List User → Option StoreError
  | [] => none
  | u :: us =>
    if u.Id == user.Id then some (.userExistsId user.Id)
    else if lower u.Name == lower user.Name then some (.userExistsName user.Name)
    else addUserScan lower user us

/-- `func (j *jsonConnector) AddUser(user *User) (int, error)`, with
`strings.ToLower` passed as `lower`. -/
def AddUser (lower : String → String) (save : SaveFn) (j : jsonConnector) (user : User) :
    jsonConnector × Int × Option StoreError :=
  match addUserScan lower user j.Users with
  | some e => (j, 0, some e)
  | none =>
    let user1 := { user with Id := nextUserId j }
    let j1 := { j with Users := j.Users ++ [user1] }
    (j1, user1.Id, save j1)

/-! ## Votes -/

/-- `func (j *jsonConnector) GetUserVotes(userId int) []*Movie`. -/
def GetUserVotes (j : jsonConnector) (userId : Int) : List Movie :=
  j.Votes.filterMap (fun v => if v.UserId == userId then findMovie j v.MovieId else none)

/-- `func (j *jsonConnector) AddVote(userId, movieId int) error`. -/
def AddVote (save : SaveFn) (j : jsonConnector) (userId movieId : Int) :
    jsonConnector × Option StoreError :=
  match findUser j userId with
  | none => (j, some (.userNotFound userId))
  | some _ =>
    match findMovie j movieId with
    | none => (j, some (.movieNotFound movieId))
    | some movie =>
      if movie.Watched.isSome then (j, some .movieWatched)
      else if movie.Removed then (j, some .movieRemoved)
      else
        let cId : Int :=
          match currentCycle j with
          | some cc => cc.Id
          | none => 0
        let j1 := { j with Votes := j.Votes ++ [{ UserId := userId, MovieId := movieId, CycleId := cId }] }
        (j1, save j1)

/-! ## Configuration store -/

/-- What a call hands back: a value with an optional error, or a run-time
panic (a failed type assertion, a write to a nil map). -/
inductive Ret (α : Type) where
  | ret (v : α) (err : Option StoreError)
  | panic
deriving DecidableEq, Repr

/-- The digit loop of Go's `strconv.ParseUint` for base 10: a byte that is not a
decimal digit is a syntax error, a running value above `maxVal` is a range
error, whichever comes first. (With `maxVal < 2^32` the 64-bit overflow test of
the library can never fire and is left out.) -/
def parseUintLoop (maxVal : Nat) : List Char → Nat → Except NumError Nat
  | [], n => .ok n
  | c :: cs, n =>
    if c.isDigit then
      let n1 := n * 10 + (c.toNat - 48)
      if n1 > maxVal then .error .rangeErr else parseUintLoop maxVal cs n1
    else .error .syntaxErr

/-- Go's `strconv.ParseInt(s, 10, 32)`, following the library: empty input is a
syntax error, one leading sign is picked off, the rest goes through
`ParseUint(_, 10, 32)`, and the magnitude is checked against `1 << 31`. -/
def ParseInt32 (s : String) : Except NumError Int :=
  match s.toList with
  | [] => .error .syntaxErr
  | c :: cs =>
    let neg : Bool := c == '-'
    let body : List Char := if c == '+' || c == '-' then cs else c :: cs
    if body.isEmpty then .error .syntaxErr
    else
      match parseUintLoop (2 ^ 32 - 1) body 0 with
      | .error e => .error e
      | .ok un =>
        if !neg && un ≥ 2 ^ 31 then .error .rangeErr
        else if neg && un > 2 ^ 31 then .error .rangeErr
        else .ok (if neg then -(un : Int) else (un : Int))

/-- Go's `strconv.ParseBool`. -/
def ParseBool (s : String) : Except NumError Bool :=
  if s ∈ ["1", "t", "T", "TRUE", "true", "True"] then .ok true
  else if s ∈ ["0", "f", "F", "FALSE", "false", "False"] then .ok false
  else .error .syntaxErr

/-- The read `val, ok := j.Settings[key]`; a nil map reads as empty. -/
def cfgLookup (j : jsonConnector) (key : String) : Option configValue :=
  match j.Settings with
  | none => none
  | some entries => entries.lookup key

/-- The write `j.Settings[key] = v`: `none` when the map is nil, where Go panics
with "assignment to entry in nil map". -/
def cfgStore (j : jsonConnector) (key : String) (v : configValue) : Option jsonConnector :=
  match j.Settings with
  | none => none
  | some entries =>
    some { j with Settings := some ((key, v) :: entries.filter (fun p => p.1 != key)) }

/-- Go's conversion `int(f)` of a `float64`: truncation toward zero; a value
outside the range of `int` gives the smallest `int` (the amd64 result). -/
def intOfFloat64 (q : Rat) : Int :=
  if minInt ≤ q.num.tdiv q.den ∧ q.num.tdiv q.den ≤ maxInt then q.num.tdiv q.den else minInt

/-- `func (j *jsonConnector) GetCfgString(key string) (string, error)`. -/
def GetCfgString (j : jsonConnector) (key : String) : Ret String :=
  match cfgLookup j key with
  | none => .ret "" (some (.settingMissing key))
  | some val =>
    if val.Type_ = CVT_STRING then
      match val.Value with
      | .str s => .ret s none
      | _ => .panic
    else if val.Type_ = CVT_INT then
      match val.Value with
      | .int n => .ret (toString n) none
      | _ => .panic
    else if val.Type_ = CVT_BOOL then
      match val.Value with
      | .bool b => .ret (toString b) none
      | _ => .panic
    else .ret "" (some (.unknownType val.Type_))

/-- `func (j *jsonConnector) GetCfgInt(key string) (int, error)`. -/
def GetCfgInt (j : jsonConnector) (key : String) : Ret Int :=
  match cfgLookup j key with
  | none => .ret 0 (some (.settingMissing key))
  | some val =>
    if val.Type_ = CVT_STRING then
      match val.Value with
      | .str s =>
        match ParseInt32 s with
        | .error e => .ret 0 (some (.intParse e))
        | .ok ival => .ret ival none
      | _ => .panic
    else if val.Type_ = CVT_INT then
      match val.Value with
      | .int n => .ret n none
      | .float64 q => .ret (intOfFloat64 q) none
      | _ => .ret 0 (some (.unknownNumberType key))
    else if val.Type_ = CVT_BOOL then
      match val.Value with
      | .bool b => if b == true then .ret 1 none else .ret 0 none
      | _ => .panic
    else .ret 0 (some (.unknownType val.Type_))

/-- `func (j *jsonConnector) GetCfgBool(key string) (bool, error)`. -/
def GetCfgBool (j : jsonConnector) (key : String) : Ret Bool :=
  match cfgLookup j key with
  | none => .ret false (some (.settingMissing key))
  | some val =>
    if val.Type_ = CVT_STRING then
      match val.Value with
      | .str s =>
        match ParseBool s with
        | .error e => .ret false (some (.boolParse e))
        | .ok bval => .ret bval none
      | _ => .panic
    else if val.Type_ = CVT_INT then
      match val.Value with
      | .int n => if n == 0 then .ret false none else .ret true none
      | _ => .panic
    else if val.Type_ = CVT_BOOL then
      match val.Value with
      | .bool b => .ret b none
      | _ => .panic
    else .ret false (some (.unknownType val.Type_))

/-- `func (j *jsonConnector) SetCfgString(key, value string) error`: the state
left with the returned error, or a panic when the map is nil. -/
def SetCfgString (save : SaveFn) (j : jsonConnector) (key value : String) : Ret jsonConnector :=
  match cfgStore j key { Type_ := CVT_STRING, Value := .str value } with
  | none => .panic
  | some j1 => .ret j1 (save j1)

/-- `func (j *jsonConnector) SetCfgInt(key string, value int) error`. -/
def SetCfgInt (save : SaveFn) (j : jsonConnector) (key : String) (value : Int) :
    Ret jsonConnector :=
  match cfgStore j key { Type_ := CVT_INT, Value := .int value } with
  | none => .panic
  | some j1 => .ret j1 (save j1)

/-- `func (j *jsonConnector) SetCfgBool(key string, value bool) error`. -/
def SetCfgBool (save : SaveFn) (j : jsonConnector) (key : String) (value : Bool) :
    Ret jsonConnector :=
  match cfgStore j key { Type_ := CVT_BOOL, Value := .bool value } with
  | none => .panic
  | some j1 => .ret j1 (save j1)

/-! ## Sample states used to evaluate the model -/

/-- A `save` that always succeeds. -/
def saveOk : SaveFn := fun _ => none

/-- A `save` that always fails. -/
def saveFail : SaveFn := fun _ => some (.io "Unable to write JSON data")

/-- A user record with the given identifier and name. -/
def mkUser (id : Int) (name : String) : User :=
  { Id := id, Name := name, Password := "", PassDate := 0, Email := "",
    NotifyCycleEnd := false, NotifyVoteSelection := false }

/-- A stored movie record with the given identifier, name, removed flag and
watched timestamp. -/
def mkJsonMovie (id : Int) (name : String) (removed : Bool) (watched : Option Time) :
    jsonMovie :=
  { Id := id, Name := name, Links := [], Description := "", CycleAddedId := 0,
    Removed := removed, Approved := true, Watched := watched, Poster := "" }

/-- A full-form movie with the given identifier and name. -/
def mkMovie (id : Int) (name : String) : Movie :=
  { Id := id, Name := name, Links := ["https://example.org/x"], Description := "d",
    CycleAdded := none, Removed := false, Approved := false, Watched := none,
    Poster := "p.png", Votes := [] }

/-- The store `NewJsonConnector` returns when the file does not exist. -/
def freshStore : jsonConnector :=
  { CurrentCycle := 0, Cycles := [], Movies := [], Users := [], Votes := [],
    Settings := some [("Active", { Type_ := CVT_BOOL, Value := .bool true })] }

/-- The stored record `findMovie` resolves: the first one with that identifier. -/
def storedMovie (j : jsonConnector) (id : Int) : Option jsonMovie :=
  j.Movies.find? (fun m => m.Id == id)

/-- The identifier a new vote or movie is tagged with: the identifier of the
current cycle, or 0 when no stored cycle is the current one. -/
def currentCycleId (j : jsonConnector) : Int :=
  if j.Cycles.any (fun c => c.Id == j.CurrentCycle) then j.CurrentCycle else 0

/-- ASCII lower-casing of a string, a stand-in for `strings.ToLower` on sample
inputs. -/
def asciiLower (s : String) : String :=
  String.mk (s.toList.map (fun c => if 65 ≤ c.toNat ∧ c.toNat ≤ 90 then Char.ofNat (c.toNat + 32) else c))

/-- A store with one user (id 1, "Ann") and one movie (id 1, "Alien") that has
been watched. -/
def watchedStore : jsonConnector :=
  { freshStore with
    Users := [mkUser 1 "Ann"]
    Movies := [mkJsonMovie 1 "Alien" false (some 1700000000)] }

/-- A store with one user (id 1, "Ann"), one active movie (id 1, "Alien") and
already one vote of that user for that movie. -/
def votedStore : jsonConnector :=
  { freshStore with
    Users := [mkUser 1 "Ann"]
    Movies := [mkJsonMovie 1 "Alien" false none]
    Votes := [{ UserId := 1, MovieId := 1, CycleId := 0 }] }

/-- A store with one user (id 1, "Ann") and one removed movie (id 1). -/
def removedStore : jsonConnector :=
  { freshStore with
    Users := [mkUser 1 "Ann"]
    Movies := [mkJsonMovie 1 "Alien" true none] }

/-! ## Decimal integer literals, as the specification words them -/

/-- The sign and the digit part of a literal: a leading `-` or `+` is the
optional sign, the rest are the digits. -/
def literalSplit (s : String) : Bool × List Char :=
  match s.toList with
  | [] => (false, [])
  | c :: cs =>
    if c = '-' then (true, cs)
    else if c = '+' then (false, cs)
    else (false, c :: cs)

/-- A decimal integer literal: an optional sign followed by decimal digits, at
least one. -/
def isDecimalLiteral (s : String) : Bool :=
  !(literalSplit s).2.isEmpty && (literalSplit s).2.all Char.isDigit

/-- The number a string of decimal digits denotes in positional notation. -/
def digitsValue : List Char → Nat
  | [] => 0
  | c :: cs => (c.toNat - 48) * 10 ^ cs.length + digitsValue cs

/-- The integer a decimal integer literal denotes. -/
def decimalValue (s : String) : Int :=
  if (literalSplit s).1 then -((digitsValue (literalSplit s).2 : Nat) : Int)
  else ((digitsValue (literalSplit s).2 : Nat) : Int)

/-- A store whose only setting is the string `v` under the key "Limit". -/
def limitStore (v : String) : jsonConnector :=
  { freshStore with Settings := some [("Limit", { Type_ := CVT_STRING, Value := .str v })] }

/-! ## Configuration store: deleting a key -/

/-- `func (j *jsonConnector) DeleteCfgKey(key string) error`: `delete` drops the
entry of the key, if there is one (on a nil map it does nothing), then the state
is saved. -/
def DeleteCfgKey (save : SaveFn) (j : jsonConnector) (key : String) :
    jsonConnector × Option StoreError :=
  let j1 := { j with Settings := j.Settings.map (fun entries => entries.filter (fun p => p.1 != key)) }
  (j1, save j1)

/-! ## Reading a number as a `float64` -/

/-- The zero value of `time.Time`, from which instants are counted. -/
def zeroTime : Time := 0

/-- `func (j *jsonConnector) nextCycleId() int`. -/
def nextCycleId (j : jsonConnector) : Int :=
  wrapInt (j.Cycles.foldl (fun highest c => if c.Id > highest then c.Id else highest) 0 + 1)

/-- `func (j *jsonConnector) GetCurrentCycle() *Cycle`. -/
def GetCurrentCycle (j : jsonConnector) : Option Cycle :=
  currentCycle j

/-- `func (j *jsonConnector) AddCycle(end *time.Time) (int, error)`; `now` is the
reading of `time.Now()`. Without an end time the `End` field keeps its zero
value. -/
def AddCycle (save : SaveFn) (now : Time) (j : jsonConnector) (endTime : Option Time) :
    jsonConnector × Int × Option StoreError :=
  let c0 : Cycle := { Id := nextCycleId j, Start := now, End := zeroTime, EndingSet := false }
  let c : Cycle :=
    match endTime with
    | some t => { c0 with End := t, EndingSet := true }
    | none => { c0 with EndingSet := false }
  let j1 := { j with Cycles := j.Cycles ++ [c] }
  (j1, c.Id, save j1)

/-- `func (j *jsonConnector) AddOldCycle(c *Cycle) (int, error)`. -/
def AddOldCycle (save : SaveFn) (j : jsonConnector) (c : Cycle) :
    jsonConnector × Int × Option StoreError :=
  let c1 := { c with Id := nextCycleId j }
  let j1 := { j with Cycles := j.Cycles ++ [c1] }
  (j1, c1.Id, save j1)

/-! ## Active movies and title check -/

/-- `func (j *jsonConnector) GetActiveMovies() []*Movie`. -/
def GetActiveMovies (j : jsonConnector) : List Movie :=
  j.Movies.filterMap (fun m =>
    match (GetMovie j m.Id).1 with
    | some mov => if m.Watched.isNone then some mov else none
    | none => none)

/-- `func (j *jsonConnector) CheckMovieExists(title string) bool`; `clean` is the
helper `cleanMovieName`, which is outside the available sources. -/
def CheckMovieExists (clean : String → String) (j : jsonConnector) (title : String) : Bool :=
  j.Movies.any (fun m => clean title == clean m.Name)

/-- Modelled from the spec: the helper `cleanMovieName`, which is outside the
available sources. The specification calls the comparison "case/format-normalized
... (whitespace/punctuation-insensitive)" and says "normalization collapses
whitespace/case": letters are lower-cased and white space and ASCII punctuation
are dropped. -/
def cleanMovieName (s : String) : String :=
  String.mk
    ((s.toList.filter (fun c =>
        !(c.isWhitespace ||
          (33 ≤ c.toNat && c.toNat ≤ 47) || (58 ≤ c.toNat && c.toNat ≤ 64) ||
          (91 ≤ c.toNat && c.toNat ≤ 96) || (123 ≤ c.toNat && c.toNat ≤ 126)))).map
      (fun c => if 65 ≤ c.toNat ∧ c.toNat ≤ 90 then Char.ofNat (c.toNat + 32) else c))

/-! ## Reading the claims: resolved forms and sample states -/

/-- The full form of a stored record, as the specification describes the
resolution: the record's own fields, the cycle its cycle-added identifier
names, and one vote per stored vote for it, in table order, each with its
resolved cycle and user. (No watched timestamp is carried over.) -/
def resolveMovie (j : jsonConnector) (r : jsonMovie) : Movie :=
  { Id := r.Id
    Name := r.Name
    Links := r.Links
    Description := r.Description
    CycleAdded := j.Cycles.find? (fun c => c.Id == r.CycleAddedId)
    Removed := r.Removed
    Approved := r.Approved
    Watched := none
    Poster := r.Poster
    Votes := j.Votes.filterMap (fun v =>
      if v.MovieId = r.Id then
        some { MovieId := r.Id
               CycleAdded := j.Cycles.find? (fun c => c.Id == v.CycleId)
               User := j.Users.find? (fun u => u.Id == v.UserId) }
      else none) }

/-- A cycle record with the given identifier. -/
def mkCycle (id : Int) : Cycle :=
  { Id := id, Start := 100, End := 200, EndingSet := true }

/-- A store whose only cycle, movie and user all carry the identifier -5. -/
def negativeIdStore : jsonConnector :=
  { freshStore with
    Cycles := [mkCycle (-5)]
    Movies := [mkJsonMovie (-5) "Alien" false none]
    Users := [mkUser (-5) "Ann"] }

/-- A store with cycles 1 and 2, cycle 2 being the current one, two movies (1
active, 2 watched), two users and three votes. -/
def cycleStore : jsonConnector :=
  { CurrentCycle := 2
    Cycles := [mkCycle 1, mkCycle 2]
    Movies := [mkJsonMovie 1 "Alien" false none, mkJsonMovie 2 "Brazil" false (some 1700000000)]
    Users := [mkUser 1 "Ann", mkUser 2 "Bob"]
    Votes := [{ UserId := 1, MovieId := 1, CycleId := 1 }, { UserId := 2, MovieId := 2, CycleId := 1 },
      { UserId := 2, MovieId := 1, CycleId := 2 }]
    Settings := some [] }

/-- The contract of an identifier scan, for the identifiers `ids` of a table and
the result `next`: 1 when no identifier is above 0 (in particular for an empty
table), otherwise the greatest identifier plus one; always at least 1 and above
every identifier of the table. -/
def NextIdSpec (ids : List Int) (next : Int) : Prop :=
  ((∀ i ∈ ids, i ≤ 0) → next = 1) ∧
    ((∃ i ∈ ids, 0 < i) → next - 1 ∈ ids ∧ ∀ i ∈ ids, i ≤ next - 1) ∧
    1 ≤ next ∧ ∀ i ∈ ids, i < next

/-! ## Users: lookups, listing and login -/

/-- `func (j *jsonConnector) GetUser(userId int) (*User, error)`. -/
def GetUser (j : jsonConnector) (userId : Int) : Option User × Option StoreError :=
  match findUser j userId with
  | none => (none, some (.getUserNotFound userId))
  | some u => (some u, none)

/-- The loop of `GetUsers` over the sorted identifiers still to visit, with the
list built so far: `for i := 0; i < len(uids) && len(ulist) <= count; i++`. -/
def getUsersLoop (j : jsonConnector) (start count : Int) : List Int → List User → List User
  | [], ulist => ulist
  | id :: rest, ulist =>
    if (ulist.length : Int) ≤ count then
      if id < start then getUsersLoop j start count rest ulist
      else
        match findUser j id with
        | some u => getUsersLoop j start count rest (ulist ++ [u])
        | none => getUsersLoop j start count rest ulist
    else ulist

/-- `func (j *jsonConnector) GetUsers(start, count int) ([]*User, error)`;
`sort.Ints` is an ascending sort of the identifiers. -/
def GetUsers (j : jsonConnector) (start count : Int) : List User × Option StoreError :=
  let uids := (j.Users.map (fun u => u.Id)).insertionSort (· ≤ ·)
  (getUsersLoop j start count uids [], none)

/-- The loop of `UserLogin` over the users still to visit; `name` is already
lower-cased. -/
def userLoginScan (lower : String → String) (name hashedPw : String) :
    List User → Option User × Option StoreError
  | [] => (none, some .invalidLogin)
  | user :: rest =>
    if lower user.Name == name then
      if hashedPw == user.Password then (some user, none)
      else (none, some .invalidLogin)
    else userLoginScan lower name hashedPw rest

/-- `func (j *jsonConnector) UserLogin(name, hashedPw string) (*User, error)`,
with `strings.ToLower` passed as `lower`. -/
def UserLogin (lower : String → String) (j : jsonConnector) (name hashedPw : String) :
    Option User × Option StoreError :=
  userLoginScan lower (lower name) hashedPw j.Users

/-- `func (j *jsonConnector) UpdateUser(user *User) error`: the loop builds
`newLst`, which is never stored back into `j.Users`; then the state is saved. -/
def UpdateUser (save : SaveFn) (j : jsonConnector) (user : User) :
    jsonConnector × Option StoreError :=
  let _newLst : List User := j.Users.map (fun u => if u.Id == user.Id then user else u)
  (j, save j)

/-- `func (j *jsonConnector) UpdateCycle(cycle *Cycle) error`: the loop builds
`newLst`, which is never stored back into `j.Cycles`; then the state is saved. -/
def UpdateCycle (save : SaveFn) (j : jsonConnector) (cycle : Cycle) :
    jsonConnector × Option StoreError :=
  let _newLst : List Cycle := j.Cycles.map (fun c => if c.Id == cycle.Id then cycle else c)
  (j, save j)

/-! ## Sequences of public operations -/

/-- A call of a public operation of the store with its arguments. Arguments
passed by pointer are records of their own. `query` stands for any of the
operations that only read: `GetCurrentCycle`, `GetMovie`, `GetActiveMovies`,
`GetPastCycles`, `UserLogin`, `GetUserCount`, `GetUsers`, `GetUser`,
`GetUserVotes`, `CheckMovieExists`, `CheckUserExists`, `UserVotedForMovie` and
the three configuration getters. -/
inductive Op where
  | addCycle (now : Time) (endTime : Option Time)
  | addOldCycle (c : Cycle)
  | addMovie (movie : Movie)
  | addUser (user : User)
  | addVote (userId movieId : Int)
  | updateUser (user : User)
  | updateMovie (movie : Movie)
  | updateCycle (cycle : Cycle)
  | setCfgString (key value : String)
  | setCfgInt (key : String) (value : Int)
  | setCfgBool (key : String) (value : Bool)
  | deleteCfgKey (key : String)
  | query
deriving DecidableEq, Repr

/-- The state a call leaves, whatever it returns; a call that panics has not
changed the state. -/
def step (lower : String → String) (save : SaveFn) (j : jsonConnector) : Op → jsonConnector
  | .addCycle now endTime => (AddCycle save now j endTime).1
  | .addOldCycle c => (AddOldCycle save j c).1
  | .addMovie movie => (AddMovie save j movie).1
  | .addUser user => (AddUser lower save j user).1
  | .addVote u m => (AddVote save j u m).1
  | .updateUser user => (UpdateUser save j user).1
  | .updateMovie movie => (UpdateMovie save j movie).1
  | .updateCycle cycle => (UpdateCycle save j cycle).1
  | .setCfgString k v =>
    match SetCfgString save j k v with
    | .ret j1 _ => j1
    | .panic => j
  | .setCfgInt k v =>
    match SetCfgInt save j k v with
    | .ret j1 _ => j1
    | .panic => j
  | .setCfgBool k v =>
    match SetCfgBool save j k v with
    | .ret j1 _ => j1
    | .panic => j
  | .deleteCfgKey k => (DeleteCfgKey save j k).1
  | .query => j

/-- The state a sequence of calls leaves, starting from `j`. -/
def run (lower : String → String) (save : SaveFn) (j : jsonConnector) (ops : List Op) :
    jsonConnector :=
  ops.foldl (step lower save) j

/-- The identifier and name invariant of the store: user, movie and cycle
identifiers pairwise distinct and at least 1, user names pairwise distinct after
lower-casing. -/
def StoreInv (lower : String → String) (j : jsonConnector) : Prop :=
  (j.Users.map (fun u => u.Id)).Nodup ∧
    (j.Users.map (fun u => lower u.Name)).Nodup ∧
    (j.Movies.map (fun m => m.Id)).Nodup ∧
    (j.Cycles.map (fun c => c.Id)).Nodup ∧
    (∀ u ∈ j.Users, 1 ≤ u.Id) ∧ (∀ m ∈ j.Movies, 1 ≤ m.Id) ∧ (∀ c ∈ j.Cycles, 1 ≤ c.Id)

/-! ## The cycle table with pointer identity -/

/-- The cycle table as Go holds it: `objs` are the `Cycle` objects in memory, a
pointer being a position in `objs`, and `table` is `j.Cycles`, a slice of
pointers. -/
structure CycleHeap where
  objs : List Cycle
  table : List Nat
deriving DecidableEq, Repr

/-- The records the table points to, in table order. -/
def CycleHeap.cycles (h : CycleHeap) : List Cycle :=
  h.table.filterMap (fun p => h.objs[p]?)

/-- `nextCycleId` over the records the table points to. -/
def CycleHeap.nextCycleId (h : CycleHeap) : Int :=
  wrapInt (h.cycles.foldl (fun highest c => if c.Id > highest then c.Id else highest) 0 + 1)

/-- `AddOldCycle` on the pointer `c`: `c.Id = j.nextCycleId()` writes the object
`c` points to, then the pointer itself is appended to the table; `c.Id` is
returned. -/
def AddOldCyclePtr (h : CycleHeap) (c : Nat) : CycleHeap × Int :=
  let id := h.nextCycleId
  let objs1 :=
    match h.objs[c]? with
    | some o => h.objs.set c { o with Id := id }
    | none => h.objs
  ({ objs := objs1, table := h.table ++ [c] }, id)

/-! ## More sample states -/

/-- A store with users 1 ("Ann", password hash "h1") and 2 ("Bob", "h2"). -/
def twoUserStore : jsonConnector :=
  { freshStore with
    Users := [{ mkUser 1 "Ann" with Password := "h1" }, { mkUser 2 "Bob" with Password := "h2" }] }

/-- A store whose only setting is the `float64` `q` under the key "Limit",
tagged as an integer. -/
def floatLimitStore (q : Rat) : jsonConnector :=
  { freshStore with Settings := some [("Limit", { Type_ := CVT_INT, Value := .float64 q })] }

/-- A store with one user (id 1, "Ann"), one active movie (id 1, "Alien") and no
vote. -/
def activeStore : jsonConnector :=
  { freshStore with
    Users := [mkUser 1 "Ann"]
    Movies := [mkJsonMovie 1 "Alien" false none] }

/-- The state of the cycle tags when no cycle was ever made current: the
current-cycle id is 0, stored cycle identifiers are machine integers other than
0, and every stored movie and vote is tagged with cycle id 0. -/
def NoCurrentCycle (j : jsonConnector) : Prop :=
  j.CurrentCycle = 0 ∧ (∀ c ∈ j.Cycles, c.Id ≠ 0 ∧ c.Id ≤ maxInt) ∧
    (∀ m ∈ j.Movies, m.CycleAddedId = 0) ∧ (∀ v ∈ j.Votes, v.CycleId = 0)

/-- A store whose only cycle, movie and user all carry the largest machine
integer as identifier. -/
def maxIdStore : jsonConnector :=
  { freshStore with
    Cycles := [mkCycle maxInt]
    Movies := [mkJsonMovie maxInt "Alien" false none]
    Users := [mkUser maxInt "Ann"] }

/-- A store whose cycles and movies carry the smallest and the largest machine
integer as identifiers. -/
def wrapIdStore : jsonConnector :=
  { freshStore with
    Cycles := [mkCycle minInt, mkCycle maxInt]
    Movies := [mkJsonMovie minInt "Old" false none, mkJsonMovie maxInt "Alien" false none] }

/-- Every user, movie and cycle identifier of the store is at most `n`. -/
def IdsAtMost (n : Int) (j : jsonConnector) : Prop :=
  (∀ u ∈ j.Users, u.Id ≤ n) ∧ (∀ m ∈ j.Movies, m.Id ≤ n) ∧ (∀ c ∈ j.Cycles, c.Id ≤ n)

/-! ## Persisting and reloading

`save` hands the store to `json.MarshalIndent` and writes the text to the file;
`LoadJson` reads the file and hands the text to `json.Unmarshal`. The text is
kept as the JSON document it denotes (`Json`): printing a document and scanning
the text again is taken to give the document back. What the two library calls do
with a document follows `encoding/json`:

* a struct is an object with one field per exported field, under the field's
  name; `filename` and `lock` are unexported and are neither written nor read;
* an `int` is an integer literal; read back, the literal must be an integer
  within the range of `int`;
* a `time.Time` is a string, written by `MarshalJSON` (which fails for a year
  outside 0..9999) and read by `UnmarshalJSON`; the two are parameters;
* a nil slice, a nil map, a nil pointer and a nil interface are `null`;
* a field that is missing or `null` keeps its zero value; a value of the wrong
  JSON kind is an error; an unknown field is skipped;
* into an `interface{}` a string is read as a `string`, a boolean as a `bool`
  and every number as a `float64`.

Not modelled: the case-insensitive match of field names, the merging of a key
repeated within one object (the last occurrence is read), strings that are not
valid UTF-8, and a `null` element of a `[]*Cycle` or `[]*User` array, which Go
reads as a nil pointer and which is refused here. -/

/-- A JSON document. `int` is an integer literal; `real` is a number literal with
a fraction or an exponent, kept as the `float64` it reads as. -/
inductive Json where
  | null
  | bool (b : Bool)
  | int (n : Int)
  | real (q : Rat)
  | str (s : String)
  | arr (items : List Json)
  | obj (fields : List (String × Json))

/-- The file `j.filename`: absent or unreadable, holding text that is not JSON, or
holding the text of a document. -/
inductive FileContent where
  | missing
  | garbage
  | doc (d : Json)

/-- The file system as far as the store's file goes: what the file holds and
whether `ioutil.WriteFile` on it succeeds. A failed write is taken to leave the
file as it was. -/
structure Disk where
  file : FileContent
  writable : Bool

/-- Marshal the elements of a slice, failing when one of them fails. -/
def encodeList {α : Type} (enc : α → Option Json) : List α → Option (List Json)
  | [] => some []
  | x :: xs =>
    match enc x, encodeList enc xs with
    | some d, some ds => some (d :: ds)
    | _, _ => none

/-- Marshal a slice: `null` for the nil slice, which the empty list stands for,
and an array otherwise. -/
def encodeSlice {α : Type} (enc : α → Option Json) (l : List α) : Option Json :=
  match l with
  | [] => some .null
  | _ :: _ => (encodeList enc l).map Json.arr

/-- Marshal the `Value interface{}` of a setting. A `float64` with an integer
value below `10 ^ 21` in magnitude is written without fraction or exponent, hence
as an integer literal. A value outside the kinds the store writes is kept as
`null`, which is how the nil interface is written. -/
def encodeValue : GoValue → Json
  | .str s => .str s
  | .int n => .int n
  | .float64 q => if q.den = 1 ∧ q.num.natAbs < 10 ^ 21 then .int q.num else .real q
  | .bool b => .bool b
  | .other => .null

/-- Marshal a `configValue`. -/
def encodeConfigValue (v : configValue) : Json :=
  .obj [("Type", .int v.Type_), ("Value", encodeValue v.Value)]

/-- Marshal a `Cycle`; `marshalTime` is `MarshalJSON` of `time.Time`. -/
def encodeCycle (marshalTime : Time → Option String) (c : Cycle) : Option Json :=
  match marshalTime c.Start, marshalTime c.End with
  | some s, some e =>
    some (.obj [("Id", .int c.Id), ("Start", .str s), ("End", .str e),
      ("EndingSet", .bool c.EndingSet)])
  | _, _ => none

/-- Marshal a `User`. -/
def encodeUser (marshalTime : Time → Option String) (u : User) : Option Json :=
  match marshalTime u.PassDate with
  | some d =>
    some (.obj [("Id", .int u.Id), ("Name", .str u.Name), ("Password", .str u.Password),
      ("PassDate", .str d), ("Email", .str u.Email), ("NotifyCycleEnd", .bool u.NotifyCycleEnd),
      ("NotifyVoteSelection", .bool u.NotifyVoteSelection)])
  | none => none

/-- Marshal a `jsonMovie`. -/
def encodeMovie (marshalTime : Time → Option String) (m : jsonMovie) : Option Json :=
  match encodeSlice (fun s => some (Json.str s)) m.Links,
    (match m.Watched with
      | none => some Json.null
      | some t => (marshalTime t).map Json.str) with
  | some links, some w =>
    some (.obj [("Id", .int m.Id), ("Name", .str m.Name), ("Links", links),
      ("Description", .str m.Description), ("CycleAddedId", .int m.CycleAddedId),
      ("Removed", .bool m.Removed), ("Approved", .bool m.Approved), ("Watched", w),
      ("Poster", .str m.Poster)])
  | _, _ => none

/-- Marshal a `jsonVote`. -/
def encodeVote (v : jsonVote) : Option Json :=
  some (.obj [("UserId", .int v.UserId), ("MovieId", .int v.MovieId), ("CycleId", .int v.CycleId)])

/-- The entries of a map, each key once: of the entries of the association list
under one key only the first, the one a read finds, is in the map. -/
def mapEntries {α : Type} : List (String × α) → List (String × α)
  | [] => []
  | p :: ps => p :: (mapEntries ps).filter (fun q => q.1 != p.1)

/-- Marshal the `Settings` map: `null` for the nil map, otherwise an object with
one field per key. (The library writes the keys in sorted order; the order of
the fields is of no consequence to `Unmarshal`.) -/
def encodeSettings (s : Option (List (String × configValue))) : Json :=
  match s with
  | none => .null
  | some entries => .obj ((mapEntries entries).map (fun p => (p.1, encodeConfigValue p.2)))

/-- The document `json.MarshalIndent(j, "", " ")` writes, or `none` when it
returns an error. -/
def marshalStore (marshalTime : Time → Option String) (j : jsonConnector) : Option Json :=
  match encodeSlice (encodeCycle marshalTime) j.Cycles,
    encodeSlice (encodeMovie marshalTime) j.Movies,
    encodeSlice (encodeUser marshalTime) j.Users, encodeSlice encodeVote j.Votes with
  | some cycles, some movies, some users, some votes =>
    some (.obj [("CurrentCycle", .int j.CurrentCycle), ("Cycles", cycles), ("Movies", movies),
      ("Users", users), ("Votes", votes), ("Settings", encodeSettings j.Settings)])
  | _, _, _, _ => none

/-- `func (j *jsonConnector) save() error`, with the file system it acts on: the
file system it leaves and the error it returns. -/
def save (marshalTime : Time → Option String) (disk : Disk) (j : jsonConnector) :
    Disk × Option StoreError :=
  match marshalStore marshalTime j with
  | none => (disk, some (.io "Unable to marshal JSON data"))
  | some d =>
    if disk.writable then ({ disk with file := .doc d }, none)
    else (disk, some (.io "Unable to write JSON data"))

/-- Machine arithmetic agrees with the integers on results that are machine
integers. -/
theorem wrapInt_of_range (x : Int) (h1 : minInt ≤ x) (h2 : x ≤ maxInt) : wrapInt x = x := by
  unfold minInt at h1
  unfold maxInt at h2
  unfold wrapInt
  omega

/-- A machine result is a machine integer. -/
theorem wrapInt_range (x : Int) : minInt ≤ wrapInt x ∧ wrapInt x ≤ maxInt := by
  unfold minInt maxInt wrapInt
  omega

/-- The scan `highest := h0; for x: if key x > highest then highest = key x`
ends at least at `h0`, at least at every key, and at `h0` or at one of the keys. -/
theorem foldl_highest_spec {α : Type} (key : α → Int) (l : List α) (h0 : Int) :
    h0 ≤ l.foldl (fun highest x => if key x > highest then key x else highest) h0 ∧
      (∀ x ∈ l, key x ≤ l.foldl (fun highest x => if key x > highest then key x else highest) h0) ∧
      (l.foldl (fun highest x => if key x > highest then key x else highest) h0 = h0 ∨
        ∃ x ∈ l, key x = l.foldl (fun highest x => if key x > highest then key x else highest) h0) := by
  induction l generalizing h0 with
  | nil => simp
  | cons a t ih =>
    simp only [List.foldl_cons]
    obtain ⟨h1, h2, h3⟩ := ih (if key a > h0 then key a else h0)
    have hstep : h0 ≤ (if key a > h0 then key a else h0) ∧ key a ≤ (if key a > h0 then key a else h0) := by
      split_ifs with h <;> omega
    refine ⟨le_trans hstep.1 h1, ?_, ?_⟩
    · intro x hx
      rcases List.mem_cons.mp hx with h | h
      · subst h; exact le_trans hstep.2 h1
      · exact h2 x h
    · rcases h3 with h | ⟨x, hx, hk⟩
      · by_cases hgt : key a > h0
        · right
          exact ⟨a, List.mem_cons_self _ _, by rw [h, if_pos hgt]⟩
        · left
          rw [h, if_neg hgt]
      · exact Or.inr ⟨x, List.mem_cons_of_mem _ hx, hk⟩

/-- When no key is the largest machine integer, `highest + 1` does not wrap. -/
theorem scan_next_eq {α : Type} (key : α → Int) (l : List α) (hb : ∀ x ∈ l, key x < maxInt) :
    wrapInt (l.foldl (fun highest x => if key x > highest then key x else highest) 0 + 1)
      = l.foldl (fun highest x => if key x > highest then key x else highest) 0 + 1 := by
  obtain ⟨h1, _, h3⟩ := foldl_highest_spec key l 0
  apply wrapInt_of_range
  · unfold minInt; omega
  · rcases h3 with h | ⟨x, hx, hk⟩
    · rw [h]; unfold maxInt; omega
    · have := hb x hx
      omega

/-- A scan started at 0, plus one in machine arithmetic, meets the contract of an
identifier scan when no key is the largest machine integer. -/
theorem nextIdSpec_of_scan {α : Type} (key : α → Int) (l : List α)
    (hb : ∀ x ∈ l, key x < maxInt) :
    NextIdSpec (l.map key)
      (wrapInt (l.foldl (fun highest x => if key x > highest then key x else highest) 0 + 1)) := by
  rw [scan_next_eq key l hb]
  obtain ⟨h1, h2, h3⟩ := foldl_highest_spec key l 0
  refine ⟨?_, ?_, by omega, ?_⟩
  · intro hall
    rcases h3 with h | ⟨x, hx, hk⟩
    · rw [h]; rfl
    · have := hall (key x) (List.mem_map_of_mem key hx)
      omega
  · rintro ⟨i, hi, hpos⟩
    obtain ⟨x, hx, rfl⟩ := List.mem_map.mp hi
    have hle := h2 x hx
    refine ⟨?_, ?_⟩
    · rcases h3 with h | ⟨y, hy, hk⟩
      · omega
      · have : l.foldl (fun highest x => if key x > highest then key x else highest) 0 + 1 - 1
            = key y := by omega
        rw [this]
        exact List.mem_map_of_mem key hy
    · intro i hi
      obtain ⟨y, hy, rfl⟩ := List.mem_map.mp hi
      have := h2 y hy
      omega
  · intro i hi
    obtain ⟨y, hy, rfl⟩ := List.mem_map.mp hi
    have := h2 y hy
    omega

/-- Whatever the keys, as long as they are machine integers, the next identifier
is a machine integer other than 0. -/
theorem scan_next_ne_zero {α : Type} (key : α → Int) (l : List α) (hb : ∀ x ∈ l, key x ≤ maxInt) :
    wrapInt (l.foldl (fun highest x => if key x > highest then key x else highest) 0 + 1) ≠ 0 ∧
      wrapInt (l.foldl (fun highest x => if key x > highest then key x else highest) 0 + 1)
        ≤ maxInt := by
  obtain ⟨h1, _, h3⟩ := foldl_highest_spec key l 0
  have hle : l.foldl (fun highest x => if key x > highest then key x else highest) 0 ≤ maxInt := by
    rcases h3 with h | ⟨x, hx, hk⟩
    · rw [h]; unfold maxInt; omega
    · rw [← hk]; exact hb x hx
  unfold maxInt at hle ⊢
  unfold wrapInt
  omega

/-- The next movie identifier exceeds every identifier in the table when none is
the largest machine integer. -/
theorem nextMovieId_gt (j : jsonConnector) (hb : ∀ m ∈ j.Movies, m.Id < maxInt)
    (r : jsonMovie) (hr : r ∈ j.Movies) : r.Id < nextMovieId j :=
  (nextIdSpec_of_scan (fun m : jsonMovie => m.Id) j.Movies hb).2.2.2 r.Id
    (List.mem_map_of_mem _ hr)

/-- The next movie identifier is at least 1 when no stored one is the largest
machine integer. -/
theorem nextMovieId_pos (j : jsonConnector) (hb : ∀ m ∈ j.Movies, m.Id < maxInt) :
    1 ≤ nextMovieId j :=
  (nextIdSpec_of_scan (fun m : jsonMovie => m.Id) j.Movies hb).2.2.1

/-- The next movie identifier is the greatest stored identifier above 0, or 0,
plus one. -/
theorem nextMovieId_le (j : jsonConnector) (hb : ∀ m ∈ j.Movies, m.Id < maxInt) (n : Int)
    (hn : 0 ≤ n) (hle : ∀ m ∈ j.Movies, m.Id ≤ n) : nextMovieId j ≤ n + 1 := by
  unfold nextMovieId
  rw [scan_next_eq (fun m : jsonMovie => m.Id) j.Movies hb]
  obtain ⟨_, _, h3⟩ := foldl_highest_spec (fun m : jsonMovie => m.Id) j.Movies 0
  rcases h3 with h | ⟨x, hx, hk⟩
  · rw [h]; omega
  · have := hle x hx
    omega

/-- The next cycle identifier exceeds every identifier in the table when none is
the largest machine integer. -/
theorem nextCycleId_gt (j : jsonConnector) (hb : ∀ c ∈ j.Cycles, c.Id < maxInt)
    (c : Cycle) (hc : c ∈ j.Cycles) : c.Id < nextCycleId j :=
  (nextIdSpec_of_scan (fun c : Cycle => c.Id) j.Cycles hb).2.2.2 c.Id (List.mem_map_of_mem _ hc)

/-- The next cycle identifier is the greatest stored identifier above 0, or 0,
plus one. -/
theorem nextCycleId_le (j : jsonConnector) (hb : ∀ c ∈ j.Cycles, c.Id < maxInt) (n : Int)
    (hn : 0 ≤ n) (hle : ∀ c ∈ j.Cycles, c.Id ≤ n) : nextCycleId j ≤ n + 1 := by
  unfold nextCycleId
  rw [scan_next_eq (fun c : Cycle => c.Id) j.Cycles hb]
  obtain ⟨_, _, h3⟩ := foldl_highest_spec (fun c : Cycle => c.Id) j.Cycles 0
  rcases h3 with h | ⟨x, hx, hk⟩
  · rw [h]; omega
  · have := hle x hx
    omega

/-- The next user identifier exceeds every identifier in the table when none is
the largest machine integer. -/
theorem nextUserId_gt (j : jsonConnector) (hb : ∀ u ∈ j.Users, u.Id < maxInt)
    (u : User) (hu : u ∈ j.Users) : u.Id < nextUserId j :=
  (nextIdSpec_of_scan (fun u : User => u.Id) j.Users hb).2.2.2 u.Id (List.mem_map_of_mem _ hu)

/-- The next user identifier is the greatest stored identifier above 0, or 0,
plus one. -/
theorem nextUserId_le (j : jsonConnector) (hb : ∀ u ∈ j.Users, u.Id < maxInt) (n : Int)
    (hn : 0 ≤ n) (hle : ∀ u ∈ j.Users, u.Id ≤ n) : nextUserId j ≤ n + 1 := by
  unfold nextUserId
  rw [scan_next_eq (fun u : User => u.Id) j.Users hb]
  obtain ⟨_, _, h3⟩ := foldl_highest_spec (fun u : User => u.Id) j.Users 0
  rcases h3 with h | ⟨x, hx, hk⟩
  · rw [h]; omega
  · have := hle x hx
    omega

/-- Identifiers returned by a sequence of `AddMovie` calls are strictly
increasing and exceed every identifier of the initial table, as long as the
stored identifiers leave room for that many increments. -/
theorem addMovieSeq_ids (save : SaveFn) (ms : List Movie) (j : jsonConnector)
    (hlen : (ms.length : Int) ≤ maxInt)
    (hb : ∀ r ∈ j.Movies, r.Id + (ms.length : Int) ≤ maxInt) :
    (addMovieSeq save j ms).2.Pairwise (· < ·) ∧
      ∀ i ∈ (addMovieSeq save j ms).2, ∀ r ∈ j.Movies, r.Id < i := by
  induction ms generalizing j with
  | nil => simp [addMovieSeq]
  | cons movie t ih =>
    simp only [List.length_cons, Nat.cast_add, Nat.cast_one] at hlen hb
    have hb0 : ∀ m ∈ j.Movies, m.Id < maxInt := fun m hm => by
      have := hb m hm
      omega
    have hnext : nextMovieId j + (t.length : Int) ≤ maxInt := by
      unfold nextMovieId
      rw [scan_next_eq (fun m : jsonMovie => m.Id) j.Movies hb0]
      obtain ⟨_, _, h3⟩ := foldl_highest_spec (fun m : jsonMovie => m.Id) j.Movies 0
      rcases h3 with h | ⟨x, hx, hk⟩
      · rw [h]; omega
      · have := hb x hx
        omega
    have hb1 : ∀ r ∈ (AddMovie save j movie).1.Movies, r.Id + (t.length : Int) ≤ maxInt := by
      intro r hr
      simp only [AddMovie, List.mem_append, List.mem_singleton] at hr
      rcases hr with h | h
      · have := hb r h
        omega
      · rw [h]
        exact hnext
    obtain ⟨hp, hgt⟩ := ih (AddMovie save j movie).1 (by omega) hb1
    have hnew : ∀ i ∈ (addMovieSeq save (AddMovie save j movie).1 t).2,
        nextMovieId j < i := by
      intro i hi
      have := hgt i hi (newJsonMovie j movie) (by simp [AddMovie])
      simpa [newJsonMovie] using this
    refine ⟨?_, ?_⟩
    · simp only [addMovieSeq, List.pairwise_cons]
      exact ⟨fun i hi => by simpa [AddMovie, newJsonMovie] using hnew i hi, hp⟩
    · intro i hi r hr
      simp only [addMovieSeq, List.mem_cons] at hi
      rcases hi with h | h
      · rw [h]
        simpa [AddMovie, newJsonMovie] using nextMovieId_gt j hb0 r hr
      · exact hgt i h r (by simp [AddMovie, hr])

/-! ## Lemmas on lookups -/

/-- A stored user with the same lower-cased name stops the duplicate scan with
an already-exists error. -/
theorem addUserScan_of_same_name (lower : String → String) (user u : User)
    (us : List User) (hu : u ∈ us) (hn : lower u.Name = lower user.Name) :
    ∃ e, addUserScan lower user us = some e ∧ e.kind = ErrorKind.AlreadyExists := by
  induction us with
  | nil => simp at hu
  | cons a t ih =>
    unfold addUserScan
    by_cases hid : (a.Id == user.Id) = true
    · exact ⟨.userExistsId user.Id, by rw [if_pos hid], rfl⟩
    · rw [if_neg hid]
      by_cases hnm : (lower a.Name == lower user.Name) = true
      · exact ⟨.userExistsName user.Name, by rw [if_pos hnm], rfl⟩
      · rw [if_neg hnm]
        rcases List.mem_cons.mp hu with h | h
        · subst h
          exact absurd (by simpa using hn) hnm
        · exact ih h

/-- A movie resolved by `findMovie` carries the identifier asked for. -/
theorem findMovie_id (j : jsonConnector) (id : Int) (mov : Movie)
    (h : findMovie j id = some mov) : mov.Id = id := by
  unfold findMovie at h
  split at h
  · simp only [Option.some.injEq] at h
    rw [← h]
  · simp at h

/-- The resolved movie never carries a watched timestamp. -/
theorem findMovie_watched (j : jsonConnector) (id : Int) (mov : Movie)
    (h : findMovie j id = some mov) : mov.Watched = none := by
  unfold findMovie at h
  split at h
  · simp only [Option.some.injEq] at h
    rw [← h]
  · simp at h

/-- The resolved movie carries the removed flag of the stored record. -/
theorem findMovie_removed (j : jsonConnector) (id : Int) (r : jsonMovie)
    (h : storedMovie j id = some r) :
    ∃ mov, findMovie j id = some mov ∧ mov.Removed = r.Removed := by
  unfold storedMovie at h
  unfold findMovie
  rw [h]
  exact ⟨_, rfl, rfl⟩

/-- Appending a vote does not change what `findMovie` resolves. -/
theorem findMovie_votes_irrelevant (j : jsonConnector) (vs : List jsonVote) (id : Int) :
    findMovie { j with Votes := vs } id = findMovie j id := rfl

/-- The current cycle, when there is one, has the stored current-cycle id, and
there is one exactly when some stored cycle has that id. -/
theorem currentCycle_id_eq (j : jsonConnector) :
    (match currentCycle j with
      | some cc => cc.Id
      | none => 0) = currentCycleId j := by
  unfold currentCycle currentCycleId
  cases hf : j.Cycles.find? (fun c => j.CurrentCycle == c.Id) with
  | none =>
    have hany : j.Cycles.any (fun c => c.Id == j.CurrentCycle) = false := by
      rw [List.any_eq_false]
      intro c hc
      have := List.find?_eq_none.mp hf c hc
      simp only [beq_iff_eq] at this ⊢
      exact fun h => this h.symm
    simp [hany]
  | some c =>
    have hid : j.CurrentCycle = c.Id := by
      have := List.find?_some hf
      simpa using this
    have hany : j.Cycles.any (fun c => c.Id == j.CurrentCycle) = true := by
      rw [List.any_eq_true]
      exact ⟨c, List.mem_of_find?_eq_some hf, by simp [hid]⟩
    simp only [hany, if_true]
    exact hid.symm

/-- Entries under other keys survive the filter of a map write. -/
theorem lookup_filter_ne (k k2 : String) (hk : k2 ≠ k) (l : List (String × configValue)) :
    (l.filter (fun p => p.1 != k)).lookup k2 = l.lookup k2 := by
  induction l with
  | nil => rfl
  | cons a t ih =>
    obtain ⟨ak, av⟩ := a
    by_cases hak : ak = k
    · subst hak
      have h1 : (k2 == ak) = false := by simpa using hk
      simp [List.filter_cons, List.lookup_cons, h1, ih]
    · have h2 : (ak != k) = true := by simpa using hak
      simp only [List.filter_cons, h2, if_true, List.lookup_cons, ih]

/-- A map write is read back under its key, and changes nothing but the map. -/
theorem cfgLookup_store_same (j j1 : jsonConnector) (k : String) (v : configValue)
    (h : cfgStore j k v = some j1) :
    cfgLookup j1 k = some v ∧ j1 = { j with Settings := j1.Settings } := by
  unfold cfgStore at h
  cases hs : j.Settings with
  | none => simp [hs] at h
  | some entries =>
    simp only [hs, Option.some.injEq] at h
    subst h
    exact ⟨by simp [cfgLookup, List.lookup_cons], rfl⟩

/-- On a string of digits the loop returns the positional value accumulated onto
`n`, or a range error when that value exceeds `maxVal`. -/
theorem parseUintLoop_digits (maxVal : Nat) (cs : List Char) (n : Nat)
    (hn : n ≤ maxVal) (hd : cs.all Char.isDigit = true) :
    parseUintLoop maxVal cs n =
      if n * 10 ^ cs.length + digitsValue cs ≤ maxVal
      then .ok (n * 10 ^ cs.length + digitsValue cs) else .error .rangeErr := by
  induction cs generalizing n with
  | nil => simp [parseUintLoop, digitsValue, hn]
  | cons c t ih =>
    simp only [List.all_cons, Bool.and_eq_true] at hd
    have hval : (n * 10 + (c.toNat - 48)) * 10 ^ t.length + digitsValue t
        = n * 10 ^ (c :: t).length + digitsValue (c :: t) := by
      simp only [List.length_cons, digitsValue, pow_succ]
      ring
    unfold parseUintLoop
    simp only [hd.1, if_true]
    by_cases hbig : n * 10 + (c.toNat - 48) > maxVal
    · have hpow : 1 ≤ 10 ^ t.length := Nat.one_le_pow _ _ (by norm_num)
      have hge : n * 10 + (c.toNat - 48)
          ≤ (n * 10 + (c.toNat - 48)) * 10 ^ t.length + digitsValue t := by
        calc n * 10 + (c.toNat - 48) = (n * 10 + (c.toNat - 48)) * 1 := by ring
          _ ≤ (n * 10 + (c.toNat - 48)) * 10 ^ t.length := Nat.mul_le_mul_left _ hpow
          _ ≤ _ := Nat.le_add_right _ _
      rw [if_pos hbig, if_neg]
      rw [← hval]
      omega
    · rw [if_neg hbig, ih _ (by omega) hd.2, hval]

/-- On a string holding a byte that is not a digit the loop fails. -/
theorem parseUintLoop_nondigit (maxVal : Nat) (cs : List Char) (n : Nat)
    (hd : cs.all Char.isDigit = false) :
    ∃ e, parseUintLoop maxVal cs n = .error e := by
  induction cs generalizing n with
  | nil => simp at hd
  | cons c t ih =>
    unfold parseUintLoop
    by_cases hc : c.isDigit = true
    · have ht : t.all Char.isDigit = false := by
        simpa [List.all_cons, hc] using hd
      simp only [hc, if_true]
      by_cases hbig : n * 10 + (c.toNat - 48) > maxVal
      · exact ⟨_, by rw [if_pos hbig]⟩
      · rw [if_neg hbig]
        exact ih _ ht
    · exact ⟨_, by rw [if_neg hc]⟩

/-- The parse in terms of the sign and digit part of the input. -/
theorem ParseInt32_split (s : String) :
    ParseInt32 s =
      if (literalSplit s).2.isEmpty then .error .syntaxErr
      else
        match parseUintLoop (2 ^ 32 - 1) (literalSplit s).2 0 with
        | .error e => .error e
        | .ok un =>
          if !(literalSplit s).1 && un ≥ 2 ^ 31 then .error .rangeErr
          else if (literalSplit s).1 && un > 2 ^ 31 then .error .rangeErr
          else .ok (if (literalSplit s).1 then -(un : Int) else (un : Int)) := by
  unfold ParseInt32 literalSplit
  cases s.toList with
  | nil => rfl
  | cons c cs =>
    by_cases h1 : c = '-'
    · subst h1; simp
    · by_cases h2 : c = '+'
      · subst h2; simp
      · simp [h1, h2]

/-- A decimal integer literal within the signed 32-bit range parses to the
integer it denotes. -/
theorem ParseInt32_of_literal (s : String) (hl : isDecimalLiteral s = true)
    (hlo : -(2 : Int) ^ 31 ≤ decimalValue s) (hhi : decimalValue s ≤ 2 ^ 31 - 1) :
    ParseInt32 s = .ok (decimalValue s) := by
  unfold isDecimalLiteral at hl
  simp only [Bool.and_eq_true, Bool.not_eq_true'] at hl
  rw [ParseInt32_split, hl.1, parseUintLoop_digits _ _ _ (Nat.zero_le _) hl.2]
  unfold decimalValue at hlo hhi ⊢
  cases hneg : (literalSplit s).1 <;> simp only [hneg] at hlo hhi ⊢
  · have hle : digitsValue (literalSplit s).2 ≤ 2 ^ 31 - 1 := by
      have := hhi
      norm_num at this ⊢
      omega
    have hle2 : 0 * 10 ^ (literalSplit s).2.length + digitsValue (literalSplit s).2
        ≤ 2 ^ 32 - 1 := by
      norm_num at hle ⊢
      omega
    simp only [Bool.false_eq_true, if_false, if_pos hle2]
    norm_num at hle ⊢
    omega
  · have hle : digitsValue (literalSplit s).2 ≤ 2 ^ 31 := by
      have := hlo
      norm_num at this ⊢
      omega
    have hle2 : 0 * 10 ^ (literalSplit s).2.length + digitsValue (literalSplit s).2
        ≤ 2 ^ 32 - 1 := by
      norm_num at hle ⊢
      omega
    simp only [Bool.false_eq_true, if_false, if_pos hle2]
    norm_num at hle ⊢
    omega

/-- A string that is not a decimal integer literal within the signed 32-bit
range fails to parse. -/
theorem ParseInt32_of_nonliteral (s : String)
    (h : ¬(isDecimalLiteral s = true ∧ -(2 : Int) ^ 31 ≤ decimalValue s ∧
      decimalValue s ≤ 2 ^ 31 - 1)) :
    ∃ e, ParseInt32 s = .error e := by
  rw [ParseInt32_split]
  by_cases he : (literalSplit s).2.isEmpty = true
  · exact ⟨_, by rw [if_pos he]⟩
  rw [if_neg he]
  cases hd : (literalSplit s).2.all Char.isDigit with
  | false =>
    obtain ⟨e, hloop⟩ := parseUintLoop_nondigit (2 ^ 32 - 1) _ 0 hd
    exact ⟨e, by rw [hloop]⟩
  | true =>
    have hl : isDecimalLiteral s = true := by
      unfold isDecimalLiteral
      simp only [Bool.not_eq_true] at he
      simp [he, hd]
    rw [parseUintLoop_digits _ _ _ (Nat.zero_le _) hd]
    by_cases hfit : 0 * 10 ^ (literalSplit s).2.length + digitsValue (literalSplit s).2
        ≤ 2 ^ 32 - 1
    · rw [if_pos hfit]
      have hrange : ¬(-(2 : Int) ^ 31 ≤ decimalValue s ∧ decimalValue s ≤ 2 ^ 31 - 1) :=
        fun hr => h ⟨hl, hr⟩
      unfold decimalValue at hrange
      cases hneg : (literalSplit s).1 <;> simp only [hneg] at hrange ⊢
      · have hbig : 2147483648 ≤ digitsValue (literalSplit s).2 := by
          by_contra hc
          apply hrange
          norm_num at hc ⊢
          omega
        refine ⟨.rangeErr, ?_⟩
        simp only [zero_mul, zero_add]
        simp [hbig]
      · have hbig : 2147483648 < digitsValue (literalSplit s).2 := by
          by_contra hc
          apply hrange
          norm_num at hc ⊢
          omega
        refine ⟨.rangeErr, ?_⟩
        simp only [zero_mul, zero_add]
        simp [hbig]
    · exact ⟨_, by rw [if_neg hfit]⟩

/-! ## Lemmas on deleting settings -/

/-- No entry is read under a key after the filter of `delete`. -/
theorem lookup_filter_self (k : String) (l : List (String × configValue)) :
    (l.filter (fun p => p.1 != k)).lookup k = none := by
  induction l with
  | nil => rfl
  | cons a t ih =>
    obtain ⟨ak, av⟩ := a
    by_cases hak : ak = k
    · subst hak
      simp [List.filter_cons, ih]
    · have h2 : (ak != k) = true := by simpa using hak
      have h3 : (k == ak) = false := by simpa using fun h : k = ak => hak h.symm
      simp only [List.filter_cons, h2, if_true, List.lookup_cons, h3, ih]

/-! ## Lemmas on resolving movies -/

/-- A filter-then-build scan written with `filterMap` is the map of the filter. -/
theorem filterMap_ite_eq_map_filter {α β : Type} (p : α → Bool) (g : α → β) (l : List α) :
    l.filterMap (fun x => if p x = true then some (g x) else none) = (l.filter p).map g := by
  induction l with
  | nil => rfl
  | cons a t ih =>
    cases hp : p a <;> simp [List.filterMap_cons, List.filter_cons, hp, ih]

/-- The votes of a resolved form, as a filter of the vote table followed by the
resolution of each vote. -/
theorem resolveMovie_votes (j : jsonConnector) (r : jsonMovie) :
    (resolveMovie j r).Votes = (j.Votes.filter (fun v => v.MovieId == r.Id)).map (fun v =>
      { MovieId := r.Id
        CycleAdded := j.Cycles.find? (fun c => c.Id == v.CycleId)
        User := j.Users.find? (fun u => u.Id == v.UserId) }) := by
  unfold resolveMovie
  simp only
  rw [← filterMap_ite_eq_map_filter (fun v : jsonVote => v.MovieId == r.Id)]
  congr 1
  funext v
  by_cases hv : v.MovieId = r.Id <;> simp [hv]

/-- The votes `findVotes` resolves for a movie are those of the resolved form of
the record with the same identifier. -/
theorem findVotes_eq (j : jsonConnector) (movie : Movie) (r : jsonMovie)
    (hid : movie.Id = r.Id) : findVotes j movie = (resolveMovie j r).Votes := by
  rw [resolveMovie_votes]
  unfold findVotes findCycle findUser
  simp only [hid]

/-- When the first record with the identifier is `r`, `GetMovie` succeeds with the
resolved form of `r`. -/
theorem getMovie_of_stored (j : jsonConnector) (id : Int) (r : jsonMovie)
    (h : storedMovie j id = some r) : GetMovie j id = (some (resolveMovie j r), none) := by
  have hid : r.Id = id := by
    have := List.find?_some h
    simpa using this
  unfold storedMovie at h
  unfold GetMovie findMovie
  rw [h]
  simp only
  rw [findVotes_eq j _ r hid.symm]
  subst hid
  rfl

/-- When no record has the identifier, `GetMovie` fails with its not-found error. -/
theorem getMovie_of_absent (j : jsonConnector) (id : Int)
    (h : storedMovie j id = none) : GetMovie j id = (none, some (.movieWithIdNotFound id)) := by
  unfold storedMovie at h
  unfold GetMovie findMovie
  rw [h]

/-- With pairwise distinct identifiers, the first record with the identifier of
a stored record is that record. -/
theorem storedMovie_of_nodup (j : jsonConnector)
    (hd : (j.Movies.map (fun m => m.Id)).Nodup) (m : jsonMovie) (hm : m ∈ j.Movies) :
    storedMovie j m.Id = some m := by
  unfold storedMovie
  cases hf : j.Movies.find? (fun x => x.Id == m.Id) with
  | none =>
    have := List.find?_eq_none.mp hf m hm
    simp at this
  | some x =>
    have hx := List.mem_of_find?_eq_some hf
    have hid : x.Id = m.Id := by
      have := List.find?_some hf
      simpa using this
    rw [List.inj_on_of_nodup_map hd hx hm hid]

/-! ## Lemmas on adding a movie -/

/-- `CheckMovieExists` answers true exactly when a stored name has the same
normalized form as the title. -/
theorem checkMovieExists_iff (clean : String → String) (j : jsonConnector) (t : String) :
    CheckMovieExists clean j t = true ↔ ∃ r ∈ j.Movies, clean r.Name = clean t := by
  unfold CheckMovieExists
  rw [List.any_eq_true]
  constructor
  · rintro ⟨r, hr, h⟩
    exact ⟨r, hr, (by simpa using h : clean t = clean r.Name).symm⟩
  · rintro ⟨r, hr, h⟩
    exact ⟨r, hr, by simpa using h.symm⟩

/-- After `AddMovie` every title with the normalized form of the added name is
found. -/
theorem checkMovieExists_after_addMovie (clean : String → String) (save : SaveFn)
    (j : jsonConnector) (movie : Movie) (t : String) (h : clean t = clean movie.Name) :
    CheckMovieExists clean (AddMovie save j movie).1 t = true := by
  rw [checkMovieExists_iff]
  exact ⟨newJsonMovie j movie, by simp [AddMovie], h.symm⟩

/-! ## Lemmas on the shape of successful calls -/

/-- When the duplicate scan finds nothing, `AddUser` appends the user under the
next identifier and returns that identifier with the outcome of `save`. -/
theorem addUser_of_valid (lower : String → String) (save : SaveFn) (j : jsonConnector)
    (user : User) (h : addUserScan lower user j.Users = none) :
    AddUser lower save j user =
        ({ j with Users := j.Users ++ [{ user with Id := nextUserId j }] }, nextUserId j,
          save { j with Users := j.Users ++ [{ user with Id := nextUserId j }] }) ∧
      (AddUser lower save j user).1.Users = j.Users ++ [{ user with Id := nextUserId j }] := by
  have h1 : AddUser lower save j user =
      ({ j with Users := j.Users ++ [{ user with Id := nextUserId j }] }, nextUserId j,
        save { j with Users := j.Users ++ [{ user with Id := nextUserId j }] }) := by
    unfold AddUser
    rw [h]
  exact ⟨h1, by rw [h1]⟩

/-- When `AddVote` passes validation (it returns no error under a succeeding
`save`), it appends the vote tagged with the current cycle id and returns the
outcome of `save`. -/
theorem addVote_of_valid (save : SaveFn) (j : jsonConnector) (u m : Int)
    (h : (AddVote saveOk j u m).2 = none) :
    AddVote save j u m =
      ({ j with Votes := j.Votes ++ [{ UserId := u, MovieId := m, CycleId := currentCycleId j }] },
        save { j with
          Votes := j.Votes ++ [{ UserId := u, MovieId := m, CycleId := currentCycleId j }] }) := by
  unfold AddVote at h ⊢
  cases hu : findUser j u with
  | none => simp [hu] at h
  | some usr =>
    cases hm : findMovie j m with
    | none => simp [hu, hm] at h
    | some movie =>
      simp only [hu, hm] at h ⊢
      cases hw : movie.Watched.isSome with
      | true => simp [hw] at h
      | false =>
        cases hr : movie.Removed with
        | true => simp [hw, hr] at h
        | false => simp only [Bool.false_eq_true, if_false, currentCycle_id_eq]

/-! ## Lemmas on the login scan -/

/-- The login scan either returns a stored user with the name and password hash
asked for, without error, or no user with the invalid-credentials error. -/
theorem userLoginScan_cases (lower : String → String) (n h : String) (us : List User) :
    (∃ u ∈ us, lower u.Name = n ∧ u.Password = h ∧ userLoginScan lower n h us = (some u, none)) ∨
      userLoginScan lower n h us = (none, some .invalidLogin) := by
  induction us with
  | nil => exact Or.inr rfl
  | cons a t ih =>
    unfold userLoginScan
    by_cases hn : lower a.Name = n
    · by_cases hp : h = a.Password
      · left
        exact ⟨a, List.mem_cons_self _ _, hn, hp.symm, by simp [hn, hp]⟩
      · right
        simp [hn, hp]
    · have hn2 : (lower a.Name == n) = false := by simpa using hn
      simp only [hn2, Bool.false_eq_true, if_false]
      rcases ih with ⟨u, hu, h1, h2, h3⟩ | h4
      · exact Or.inl ⟨u, List.mem_cons_of_mem _ hu, h1, h2, h3⟩
      · exact Or.inr h4

/-- With names distinct after lower-casing, the login scan returns every stored
user whose name and password hash are the ones asked for. -/
theorem userLoginScan_of_mem (lower : String → String) (n h : String) (us : List User)
    (hd : (us.map (fun u => lower u.Name)).Nodup) (u : User) (hu : u ∈ us)
    (hn : lower u.Name = n) (hp : u.Password = h) :
    userLoginScan lower n h us = (some u, none) := by
  induction us with
  | nil => simp at hu
  | cons a t ih =>
    simp only [List.map_cons, List.nodup_cons] at hd
    unfold userLoginScan
    rcases List.mem_cons.mp hu with heq | hmem
    · subst heq
      simp [hn, hp]
    · have hne : lower a.Name ≠ n := by
        intro h1
        apply hd.1
        rw [h1, ← hn]
        exact List.mem_map_of_mem (fun u => lower u.Name) hmem
      have hn2 : (lower a.Name == n) = false := by simpa using hne
      simp only [hn2, Bool.false_eq_true, if_false]
      exact ih hd.2 hmem

/-! ## Lemmas on sequences of operations -/

/-- Appending an element whose key is new keeps the keys pairwise distinct. -/
theorem nodup_map_concat {α β : Type} (f : α → β) (l : List α) (a : α)
    (hd : (l.map f).Nodup) (hn : ∀ x ∈ l, f x ≠ f a) : ((l ++ [a]).map f).Nodup := by
  rw [List.map_append, List.nodup_append]
  refine ⟨hd, by simp, ?_⟩
  intro b hb hb2
  simp only [List.map_cons, List.map_nil, List.mem_singleton] at hb2
  obtain ⟨x, hx, rfl⟩ := List.mem_map.mp hb
  exact hn x hx hb2

/-- A duplicate scan that finds nothing means no stored user has the identifier
or the lower-cased name of the new user. -/
theorem addUserScan_none (lower : String → String) (user : User) (us : List User)
    (h : addUserScan lower user us = none) :
    ∀ u ∈ us, u.Id ≠ user.Id ∧ lower u.Name ≠ lower user.Name := by
  induction us with
  | nil => intro u hu; simp at hu
  | cons a t ih =>
    unfold addUserScan at h
    by_cases hid : (a.Id == user.Id) = true
    · rw [if_pos hid] at h; cases h
    · rw [if_neg hid] at h
      by_cases hnm : (lower a.Name == lower user.Name) = true
      · rw [if_pos hnm] at h; cases h
      · rw [if_neg hnm] at h
        intro u hu
        rcases List.mem_cons.mp hu with heq | hmem
        · subst heq
          exact ⟨by simpa using hid, by simpa using hnm⟩
        · exact ih h u hmem

/-- `AddUser` changes nothing but the user table. -/
theorem addUser_frame (lower : String → String) (save : SaveFn) (j : jsonConnector)
    (user : User) :
    (AddUser lower save j user).1.CurrentCycle = j.CurrentCycle ∧
      (AddUser lower save j user).1.Cycles = j.Cycles ∧
      (AddUser lower save j user).1.Movies = j.Movies ∧
      (AddUser lower save j user).1.Votes = j.Votes := by
  unfold AddUser
  cases addUserScan lower user j.Users <;> exact ⟨rfl, rfl, rfl, rfl⟩

/-- The state `AddVote` leaves is the state it was given, or that state with one
vote appended, tagged with the current cycle id. -/
theorem addVote_state (save : SaveFn) (j : jsonConnector) (u m : Int) :
    (AddVote save j u m).1 = j ∨
      (AddVote save j u m).1 =
        { j with Votes := j.Votes ++ [{ UserId := u, MovieId := m, CycleId := currentCycleId j }] } := by
  unfold AddVote
  cases findUser j u with
  | none => exact Or.inl rfl
  | some usr =>
    cases findMovie j m with
    | none => exact Or.inl rfl
    | some movie =>
      simp only
      cases movie.Watched.isSome with
      | true => exact Or.inl rfl
      | false =>
        cases movie.Removed with
        | true => exact Or.inl rfl
        | false =>
          right
          simp only [Bool.false_eq_true, if_false, currentCycle_id_eq]

/-- A configuration call changes nothing but the settings. -/
theorem step_cfg_frame (lower : String → String) (save : SaveFn) (j : jsonConnector)
    (k v : String) (n : Int) (b : Bool) :
    step lower save j (.setCfgString k v)
        = { j with Settings := (step lower save j (.setCfgString k v)).Settings } ∧
      step lower save j (.setCfgInt k n)
        = { j with Settings := (step lower save j (.setCfgInt k n)).Settings } ∧
      step lower save j (.setCfgBool k b)
        = { j with Settings := (step lower save j (.setCfgBool k b)).Settings } := by
  refine ⟨?_, ?_, ?_⟩
  · simp only [step, SetCfgString]
    cases h : cfgStore j k { Type_ := CVT_STRING, Value := .str v } with
    | none => rfl
    | some j1 => exact (cfgLookup_store_same j j1 k _ h).2
  · simp only [step, SetCfgInt]
    cases h : cfgStore j k { Type_ := CVT_INT, Value := .int n } with
    | none => rfl
    | some j1 => exact (cfgLookup_store_same j j1 k _ h).2
  · simp only [step, SetCfgBool]
    cases h : cfgStore j k { Type_ := CVT_BOOL, Value := .bool b } with
    | none => rfl
    | some j1 => exact (cfgLookup_store_same j j1 k _ h).2

/-- Every call keeps the identifier and name invariant of the store, and raises
the greatest identifier by at most one, as long as the identifiers are below the
largest machine integer. -/
theorem step_keeps_storeInv (lower : String → String) (save : SaveFn) (j : jsonConnector)
    (op : Op) (n : Int) (hn0 : 0 ≤ n) (hn : n < maxInt) (h : StoreInv lower j)
    (hb : IdsAtMost n j) :
    StoreInv lower (step lower save j op) ∧ IdsAtMost (n + 1) (step lower save j op) := by
  obtain ⟨hu, hnm, hm, hc, pu, pm, pc⟩ := h
  obtain ⟨bu, bm, bc⟩ := hb
  have bu1 : ∀ u ∈ j.Users, u.Id < maxInt := fun u hx => lt_of_le_of_lt (bu u hx) hn
  have bm1 : ∀ m ∈ j.Movies, m.Id < maxInt := fun m hx => lt_of_le_of_lt (bm m hx) hn
  have bc1 : ∀ c ∈ j.Cycles, c.Id < maxInt := fun c hx => lt_of_le_of_lt (bc c hx) hn
  have bu2 : ∀ u ∈ j.Users, u.Id ≤ n + 1 := fun u hx => by have := bu u hx; omega
  have bm2 : ∀ m ∈ j.Movies, m.Id ≤ n + 1 := fun m hx => by have := bm m hx; omega
  have bc2 : ∀ c ∈ j.Cycles, c.Id ≤ n + 1 := fun c hx => by have := bc c hx; omega
  have same : StoreInv lower j ∧ IdsAtMost (n + 1) j :=
    ⟨⟨hu, hnm, hm, hc, pu, pm, pc⟩, bu2, bm2, bc2⟩
  have hcyc : ∀ c0 : Cycle, c0.Id = nextCycleId j →
      StoreInv lower { j with Cycles := j.Cycles ++ [c0] } ∧
        IdsAtMost (n + 1) { j with Cycles := j.Cycles ++ [c0] } := by
    intro c0 hid
    refine ⟨⟨hu, hnm, hm, ?_, pu, pm, ?_⟩, bu2, bm2, ?_⟩
    · apply nodup_map_concat _ _ _ hc
      intro x hx
      have := nextCycleId_gt j bc1 x hx
      show x.Id ≠ c0.Id
      omega
    · intro c hcm
      rcases List.mem_append.mp hcm with h1 | h1
      · exact pc c h1
      · simp only [List.mem_singleton] at h1
        rw [h1, hid]
        exact (nextIdSpec_of_scan (fun c : Cycle => c.Id) j.Cycles bc1).2.2.1
    · intro c hcm
      rcases List.mem_append.mp hcm with h1 | h1
      · exact bc2 c h1
      · simp only [List.mem_singleton] at h1
        rw [h1, hid]
        exact nextCycleId_le j bc1 n hn0 bc
  cases op with
  | addCycle now endTime =>
    cases endTime with
    | none => exact hcyc _ rfl
    | some t => exact hcyc _ rfl
  | addOldCycle c => exact hcyc _ rfl
  | addMovie movie =>
    refine ⟨⟨hu, hnm, ?_, hc, pu, ?_, pc⟩, bu2, ?_, bc2⟩
    · apply nodup_map_concat _ _ _ hm
      intro x hx
      have := nextMovieId_gt j bm1 x hx
      show x.Id ≠ nextMovieId j
      omega
    · intro m2 hmm
      rcases List.mem_append.mp hmm with h1 | h1
      · exact pm m2 h1
      · simp only [List.mem_singleton] at h1
        rw [h1]
        exact nextMovieId_pos j bm1
    · intro m2 hmm
      rcases List.mem_append.mp hmm with h1 | h1
      · exact bm2 m2 h1
      · simp only [List.mem_singleton] at h1
        rw [h1]
        exact nextMovieId_le j bm1 n hn0 bm
  | addUser user =>
    obtain ⟨_, f2, f3, _⟩ := addUser_frame lower save j user
    cases hscan : addUserScan lower user j.Users with
    | some e =>
      have : (AddUser lower save j user).1 = j := by unfold AddUser; rw [hscan]
      simp only [step, this]
      exact same
    | none =>
      obtain ⟨_, husers⟩ := addUser_of_valid lower save j user hscan
      have hfresh := addUserScan_none lower user j.Users hscan
      simp only [step, StoreInv, IdsAtMost, f2, f3, husers]
      refine ⟨⟨?_, ?_, hm, hc, ?_, pm, pc⟩, ?_, bm2, bc2⟩
      · apply nodup_map_concat _ _ _ hu
        intro x hx
        have := nextUserId_gt j bu1 x hx
        show x.Id ≠ nextUserId j
        omega
      · apply nodup_map_concat _ _ _ hnm
        intro x hx
        exact (hfresh x hx).2
      · intro u2 hum
        rcases List.mem_append.mp hum with h1 | h1
        · exact pu u2 h1
        · simp only [List.mem_singleton] at h1
          rw [h1]
          exact (nextIdSpec_of_scan (fun u : User => u.Id) j.Users bu1).2.2.1
      · intro u2 hum
        rcases List.mem_append.mp hum with h1 | h1
        · exact bu2 u2 h1
        · simp only [List.mem_singleton] at h1
          rw [h1]
          exact nextUserId_le j bu1 n hn0 bu
  | addVote u m =>
    rcases addVote_state save j u m with h1 | h1 <;>
      (simp only [step, h1]; exact same)
  | updateUser user => exact same
  | updateMovie movie => exact same
  | updateCycle cycle => exact same
  | setCfgString k v =>
    rw [(step_cfg_frame lower save j k v 0 false).1]
    exact same
  | setCfgInt k v =>
    rw [(step_cfg_frame lower save j k "" v false).2.1]
    exact same
  | setCfgBool k v =>
    rw [(step_cfg_frame lower save j k "" 0 v).2.2]
    exact same
  | deleteCfgKey k => exact same
  | query => exact same

/-- The identifier and name invariant holds after every sequence of calls short
enough for the identifiers to stay below the largest machine integer. -/
theorem run_keeps_storeInv (lower : String → String) (save : SaveFn) (ops : List Op)
    (j : jsonConnector) (n : Int) (hn0 : 0 ≤ n) (hn : n + (ops.length : Int) ≤ maxInt)
    (h : StoreInv lower j) (hb : IdsAtMost n j) : StoreInv lower (run lower save j ops) := by
  induction ops generalizing j n with
  | nil => exact h
  | cons op t ih =>
    simp only [List.length_cons, Nat.cast_add, Nat.cast_one] at hn
    obtain ⟨h1, h2⟩ := step_keeps_storeInv lower save j op n hn0 (by omega) h hb
    exact ih (step lower save j op) (n + 1) (by omega) (by omega) h1 h2

/-- A property every call keeps holds after every sequence of calls. -/
theorem run_keeps (lower : String → String) (save : SaveFn) (P : jsonConnector → Prop)
    (hstep : ∀ j op, P j → P (step lower save j op)) (ops : List Op) (j : jsonConnector)
    (h : P j) : P (run lower save j ops) := by
  induction ops generalizing j with
  | nil => exact h
  | cons op t ih => exact ih (step lower save j op) (hstep j op h)

/-! ## Lemmas on the current cycle along sequences of operations -/

/-- With current-cycle id 0 and no cycle identifier 0 there is no current cycle. -/
theorem currentCycle_none_of_noCurrent (j : jsonConnector) (h : NoCurrentCycle j) :
    currentCycle j = none := by
  unfold currentCycle
  rw [List.find?_eq_none]
  intro c hc
  have := (h.2.1 c hc).1
  simp only [h.1, beq_iff_eq]
  omega

/-- Every call leaves the current-cycle id as it was. -/
theorem step_currentCycle (lower : String → String) (save : SaveFn) (j : jsonConnector)
    (op : Op) : (step lower save j op).CurrentCycle = j.CurrentCycle := by
  cases op with
  | addCycle now endTime => cases endTime <;> rfl
  | addUser user => exact (addUser_frame lower save j user).1
  | addVote u m =>
    rcases addVote_state save j u m with h1 | h1 <;> simp only [step, h1]
  | addOldCycle c => rfl
  | addMovie movie => rfl
  | updateUser user => rfl
  | updateMovie movie => rfl
  | updateCycle cycle => rfl
  | setCfgString k v => rw [(step_cfg_frame lower save j k v 0 false).1]
  | setCfgInt k v => rw [(step_cfg_frame lower save j k "" v false).2.1]
  | setCfgBool k v => rw [(step_cfg_frame lower save j k "" 0 v).2.2]
  | deleteCfgKey k => rfl
  | query => rfl

/-- Every call keeps the cycle tags in the state of a store in which no cycle
was ever made current. -/
theorem step_keeps_noCurrent (lower : String → String) (save : SaveFn) (j : jsonConnector)
    (op : Op) (h : NoCurrentCycle j) : NoCurrentCycle (step lower save j op) := by
  have hnone := currentCycle_none_of_noCurrent j h
  obtain ⟨h0, hc, hm, hv⟩ := h
  have same : NoCurrentCycle j := ⟨h0, hc, hm, hv⟩
  have hcyc : ∀ c0 : Cycle, c0.Id = nextCycleId j →
      NoCurrentCycle { j with Cycles := j.Cycles ++ [c0] } := by
    intro c0 hid
    refine ⟨h0, ?_, hm, hv⟩
    intro c hcm
    rcases List.mem_append.mp hcm with h1 | h1
    · exact hc c h1
    · simp only [List.mem_singleton] at h1
      rw [h1, hid]
      exact scan_next_ne_zero (fun c : Cycle => c.Id) j.Cycles (fun x hx => (hc x hx).2)
  cases op with
  | addCycle now endTime =>
    cases endTime with
    | none => exact hcyc _ rfl
    | some t => exact hcyc _ rfl
  | addOldCycle c => exact hcyc _ rfl
  | addMovie movie =>
    refine ⟨h0, hc, ?_, hv⟩
    intro m2 hmm
    rcases List.mem_append.mp hmm with h1 | h1
    · exact hm m2 h1
    · simp only [List.mem_singleton] at h1
      rw [h1]
      simp [newJsonMovie, hnone]
  | addUser user =>
    obtain ⟨f1, f2, f3, f4⟩ := addUser_frame lower save j user
    simp only [step, NoCurrentCycle, f1, f2, f3, f4]
    exact ⟨h0, hc, hm, hv⟩
  | addVote u m =>
    rcases addVote_state save j u m with h1 | h1
    · simp only [step, h1]
      exact ⟨h0, hc, hm, hv⟩
    · simp only [step, h1]
      refine ⟨h0, hc, hm, ?_⟩
      intro v hvm
      rcases List.mem_append.mp hvm with h2 | h2
      · exact hv v h2
      · simp only [List.mem_singleton] at h2
        rw [h2, ← currentCycle_id_eq, hnone]
  | updateUser user => exact same
  | updateMovie movie => exact same
  | updateCycle cycle => exact same
  | setCfgString k v =>
    rw [(step_cfg_frame lower save j k v 0 false).1]
    exact same
  | setCfgInt k v =>
    rw [(step_cfg_frame lower save j k "" v false).2.1]
    exact same
  | setCfgBool k v =>
    rw [(step_cfg_frame lower save j k "" 0 v).2.2]
    exact same
  | deleteCfgKey k => exact same
  | query => exact same

/-! ## Lemmas on the cycle table with pointer identity -/

/-- Given a pointer that is not in the table, `AddOldCyclePtr` leaves the stored
records as they were and appends the record pointed to under the next
identifier: the by-value `AddOldCycle`. -/
theorem addOldCyclePtr_fresh (h : CycleHeap) (c : Nat) (o : Cycle)
    (ho : h.objs[c]? = some o) (hc : c ∉ h.table) :
    (AddOldCyclePtr h c).1.cycles = h.cycles ++ [{ o with Id := h.nextCycleId }] ∧
      (AddOldCyclePtr h c).2 = h.nextCycleId := by
  refine ⟨?_, rfl⟩
  obtain ⟨hlt, _⟩ := List.getElem?_eq_some.mp ho
  unfold AddOldCyclePtr CycleHeap.cycles
  simp only [ho, List.filterMap_append]
  congr 1
  · apply List.filterMap_congr
    intro p hp
    have hne : c ≠ p := fun heq => hc (heq ▸ hp)
    exact List.getElem?_set_ne hne
  · simp [List.getElem?_set, hlt]

/-- When no stored user has the new user's identifier or its lower-cased name, the
duplicate scan of `AddUser` finds nothing. -/
theorem addUserScan_none_of (lower : String → String) (user : User) (us : List User)
    (h : ∀ u ∈ us, u.Id ≠ user.Id ∧ lower u.Name ≠ lower user.Name) :
    addUserScan lower user us = none := by
  induction us with
  | nil => rfl
  | cons u us ih =>
    have h1 := h u (List.mem_cons_self _ _)
    simp only [addUserScan, beq_iff_eq, h1.1, h1.2, if_false]
    exact ih (fun x hx => h x (List.mem_cons_of_mem _ hx))

/-- After `n` calls of `AddMovie` on a fresh store, `n` within the machine
integers, the movie identifiers lie between 1 and `n` and `n` is among them. -/
theorem addMovie_replicate_ids (lower : String → String) (save : SaveFn) (mv : Movie) (n : Nat)
    (hn : (n : Int) ≤ maxInt) :
    (∀ m ∈ (run lower save freshStore (List.replicate n (.addMovie mv))).Movies,
        1 ≤ m.Id ∧ m.Id ≤ (n : Int)) ∧
      (1 ≤ n → ∃ m ∈ (run lower save freshStore (List.replicate n (.addMovie mv))).Movies,
        m.Id = (n : Int)) ∧
      nextMovieId (run lower save freshStore (List.replicate n (.addMovie mv)))
        = wrapInt ((n : Int) + 1) := by
  induction n with
  | zero =>
    refine ⟨?_, by omega, rfl⟩
    intro m hm
    simp [run, freshStore] at hm
  | succ k ih =>
    have hk : (k : Int) ≤ maxInt := by push_cast at hn; omega
    obtain ⟨h1, _, h3⟩ := ih hk
    have hw : wrapInt ((k : Int) + 1) = (k : Int) + 1 := by
      apply wrapInt_of_range
      · unfold minInt; omega
      · push_cast at hn; exact hn
    have hrun : run lower save freshStore (List.replicate (k + 1) (.addMovie mv))
        = (AddMovie save (run lower save freshStore (List.replicate k (.addMovie mv))) mv).1 := by
      rw [List.replicate_succ']
      simp only [run, List.foldl_append, List.foldl_cons, List.foldl_nil, step]
    have hmem : ∀ m ∈ (run lower save freshStore (List.replicate (k + 1) (.addMovie mv))).Movies,
        1 ≤ m.Id ∧ m.Id ≤ ((k + 1 : Nat) : Int) := by
      intro m hm
      rw [hrun] at hm
      simp only [AddMovie, List.mem_append, List.mem_singleton] at hm
      rcases hm with hm | hm
      · have := h1 m hm
        push_cast
        omega
      · subst hm
        show 1 ≤ nextMovieId _ ∧ nextMovieId _ ≤ _
        rw [h3, hw]
        push_cast
        omega
    have hlast : ∃ m ∈ (run lower save freshStore (List.replicate (k + 1) (.addMovie mv))).Movies,
        m.Id = ((k + 1 : Nat) : Int) := by
      rw [hrun]
      refine ⟨newJsonMovie (run lower save freshStore (List.replicate k (.addMovie mv))) mv, ?_, ?_⟩
      · simp [AddMovie]
      · show nextMovieId _ = _
        rw [h3, hw]
        push_cast
        rfl
    refine ⟨hmem, fun _ => hlast, ?_⟩
    obtain ⟨_, g2, g3⟩ := foldl_highest_spec (fun m : jsonMovie => m.Id)
      (run lower save freshStore (List.replicate (k + 1) (.addMovie mv))).Movies 0
    obtain ⟨m, hm, hid⟩ := hlast
    have hge := g2 m hm
    have heq : List.foldl (fun highest (x : jsonMovie) => if x.Id > highest then x.Id else highest) 0
        (run lower save freshStore (List.replicate (k + 1) (.addMovie mv))).Movies
          = ((k + 1 : Nat) : Int) := by
      rcases g3 with g | ⟨x, hx, hkx⟩
      · simp only at hge
        push_cast at hid hge ⊢
        omega
      · have := (hmem x hx).2
        simp only at hge hkx
        omega
    unfold nextMovieId
    rw [heq]

/-- After `n` calls of `AddMovie` on a fresh store, `n` within the machine
integers, one more call stores a movie under `n + 1` in machine arithmetic. -/
theorem addMovie_after_replicate (lower : String → String) (save : SaveFn) (mv : Movie) (n : Nat)
    (hn : (n : Int) ≤ maxInt) :
    ∃ m ∈ (run lower save freshStore (List.replicate n (.addMovie mv) ++ [.addMovie mv])).Movies,
      m.Id = wrapInt ((n : Int) + 1) := by
  have h3 := (addMovie_replicate_ids lower save mv n hn).2.2
  have hrun : run lower save freshStore (List.replicate n (.addMovie mv) ++ [.addMovie mv])
      = (AddMovie save (run lower save freshStore (List.replicate n (.addMovie mv))) mv).1 := by
    simp only [run, List.foldl_append, List.foldl_cons, List.foldl_nil, step]
  rw [hrun]
  refine ⟨newJsonMovie (run lower save freshStore (List.replicate n (.addMovie mv))) mv, ?_, ?_⟩
  · simp only [AddMovie, List.mem_append, List.mem_singleton, or_true]
  · exact h3

/-! ## Lemmas on persisting and reloading -/

/-- C1 as stated fails: in a store whose movie table holds the largest machine
integer as an identifier, `highest + 1` wraps, and two `AddMovie` calls both
return the smallest machine integer: the returned identifiers are neither
strictly increasing nor distinct. -/
theorem C1_addMovie_repeats_id_after_wrap :
    maxIdStore.Movies.map (fun m => m.Id) = [9223372036854775807] ∧
      (addMovieSeq saveOk maxIdStore [mkMovie 0 "Brazil", mkMovie 0 "Casablanca"]).2
        = [-9223372036854775808, -9223372036854775808] ∧
      ¬(addMovieSeq saveOk maxIdStore [mkMovie 0 "Brazil", mkMovie 0 "Casablanca"]).2.Nodup := by
  refine ⟨by decide, by decide, by decide⟩

/-- C1 (amended): for every store state and every sequence of `AddMovie` calls
applied to it such that neither the number of calls nor any stored movie
identifier plus the number of calls exceeds the largest machine integer, the
returned identifiers are strictly increasing, pairwise distinct, and different
from every identifier already in the movie table. -/
theorem C1_addMovie_ids_increasing_fresh (save : SaveFn) (j : jsonConnector)
    (ms : List Movie) (hlen : (ms.length : Int) ≤ maxInt)
    (hb : ∀ r ∈ j.Movies, r.Id + (ms.length : Int) ≤ maxInt) :
    (addMovieSeq save j ms).2.Pairwise (· < ·) ∧
      (addMovieSeq save j ms).2.Nodup ∧
      ∀ i ∈ (addMovieSeq save j ms).2, ∀ r ∈ j.Movies, i ≠ r.Id := by
  obtain ⟨hp, hgt⟩ := addMovieSeq_ids save ms j hlen hb
  refine ⟨hp, ?_, ?_⟩
  · exact hp.imp (fun h => ne_of_lt h)
  · intro i hi r hr
    exact ne_of_gt (hgt i hi r hr)

/-- Witness of C1 (amended): two movies added to `cycleStore`, which holds movies
1 and 2, get the identifiers 3 and 4. -/
theorem C1_addMovie_ids_increasing_fresh_witness :
    (addMovieSeq saveOk cycleStore [mkMovie 0 "Casablanca", mkMovie 0 "Dune"]).2 = [3, 4] ∧
      (addMovieSeq saveOk cycleStore [mkMovie 0 "Casablanca", mkMovie 0 "Dune"]).2.Pairwise
        (· < ·) ∧
      (addMovieSeq saveOk cycleStore [mkMovie 0 "Casablanca", mkMovie 0 "Dune"]).2.Nodup :=
  ⟨by decide,
    (C1_addMovie_ids_increasing_fresh saveOk cycleStore [mkMovie 0 "Casablanca", mkMovie 0 "Dune"]
      (by decide) (by decide)).1,
    (C1_addMovie_ids_increasing_fresh saveOk cycleStore [mkMovie 0 "Casablanca", mkMovie 0 "Dune"]
      (by decide) (by decide)).2.1⟩

/-- C2 (evaluation of the code): in a store that holds user 1 and a stored
movie 1 whose watched timestamp is set, `AddVote 1 1` returns no error and
appends the vote, because `findMovie` never copies the watched timestamp into
the movie `AddVote` inspects. -/
theorem C2_addVote_on_watched_movie_is_accepted :
    (∃ u ∈ watchedStore.Users, u.Id = 1) ∧
      (∃ r, storedMovie watchedStore 1 = some r ∧ r.Watched.isSome = true) ∧
      (AddVote saveOk watchedStore 1 1).2 = none ∧
      (AddVote saveOk watchedStore 1 1).1.Votes = [{ UserId := 1, MovieId := 1, CycleId := 0 }] ∧
      (AddVote saveOk watchedStore 1 1).1.Votes ≠ watchedStore.Votes := by
  refine ⟨⟨mkUser 1 "Ann", by decide, by decide⟩, ⟨_, rfl, by decide⟩, by decide, by decide, by decide⟩

/-- C3 (evaluation of the code): `UpdateMovie` never stores the list it builds,
so the state is returned as it was; for instance, updating movie 1 ("Alien")
with the name "Aliens" leaves `GetMovie 1` at the name "Alien". -/
theorem C3_updateMovie_leaves_movies_unchanged :
    (∀ (save : SaveFn) (j : jsonConnector) (movie : Movie), (UpdateMovie save j movie).1 = j) ∧
      (∃ r, storedMovie votedStore 1 = some r) ∧
      ((GetMovie (UpdateMovie saveOk votedStore (mkMovie 1 "Aliens")).1 1).1.map (·.Name))
        = some "Alien" ∧
      (UpdateMovie saveOk votedStore (mkMovie 1 "Aliens")).2 = none := by
  refine ⟨fun _ _ _ => rfl, ⟨_, rfl⟩, by decide, by decide⟩

/-- C4: when the store holds a user whose name equals the new user's name after
lower-casing both, `AddUser` returns identifier 0 with an AlreadyExists error
and the user table, hence `GetUserCount`, is unchanged. -/
theorem C4_addUser_same_name_rejected (lower : String → String) (save : SaveFn)
    (j : jsonConnector) (user u : User) (hu : u ∈ j.Users)
    (hn : lower u.Name = lower user.Name) :
    ∃ e, e.kind = ErrorKind.AlreadyExists ∧
      AddUser lower save j user = (j, 0, some e) ∧
      (AddUser lower save j user).1.Users = j.Users ∧
      GetUserCount (AddUser lower save j user).1 = GetUserCount j := by
  obtain ⟨e, he, hk⟩ := addUserScan_of_same_name lower user u j.Users hu hn
  have h : AddUser lower save j user = (j, 0, some e) := by
    unfold AddUser
    rw [he]
  exact ⟨e, hk, h, by rw [h], by rw [h]⟩

/-- Witness of C4: "ANN" is rejected in a store that holds "Ann". -/
theorem C4_addUser_same_name_rejected_witness :
    ∃ e, e.kind = ErrorKind.AlreadyExists ∧
      AddUser asciiLower saveOk votedStore (mkUser 0 "ANN") = (votedStore, 0, some e) ∧
      (AddUser asciiLower saveOk votedStore (mkUser 0 "ANN")).1.Users = votedStore.Users ∧
      GetUserCount (AddUser asciiLower saveOk votedStore (mkUser 0 "ANN")).1
        = GetUserCount votedStore :=
  C4_addUser_same_name_rejected asciiLower saveOk votedStore (mkUser 0 "ANN") (mkUser 1 "Ann")
    (by decide) (by decide)

/-- C5: whenever `AddVote u m` succeeds, `GetUserVotes u` on the resulting state
contains a movie with identifier `m`. -/
theorem C5_getUserVotes_after_addVote (save : SaveFn) (j : jsonConnector) (u m : Int)
    (h : (AddVote save j u m).2 = none) :
    ∃ mov ∈ GetUserVotes (AddVote save j u m).1 u, mov.Id = m := by
  unfold AddVote at h ⊢
  cases hu : findUser j u with
  | none => simp [hu] at h
  | some usr =>
    cases hm : findMovie j m with
    | none => simp [hu, hm] at h
    | some movie =>
      simp only [hu, hm] at h ⊢
      have hw : movie.Watched.isSome = false := by
        rw [findMovie_watched j m movie hm]; rfl
      by_cases hr : movie.Removed = true
      · simp [hw, hr] at h
      · simp only [hw, hr, Bool.false_eq_true, if_false]
        refine ⟨movie, ?_, findMovie_id j m movie hm⟩
        unfold GetUserVotes
        rw [List.mem_filterMap]
        refine ⟨{ UserId := u, MovieId := m, CycleId :=
          match currentCycle j with
          | some cc => cc.Id
          | none => 0 }, by simp, ?_⟩
        simp only [beq_self_eq_true, if_true]
        rw [findMovie_votes_irrelevant]
        exact hm

/-- Witness of C5: in `activeStore` user 1 has no vote; after `AddVote 1 1`
succeeds, `GetUserVotes 1` holds movie 1. -/
theorem C5_getUserVotes_after_addVote_witness :
    GetUserVotes activeStore 1 = [] ∧
      (AddVote saveOk activeStore 1 1).2 = none ∧
      (GetUserVotes (AddVote saveOk activeStore 1 1).1 1).map (fun mov => mov.Id) = [1] ∧
      ∃ mov ∈ GetUserVotes (AddVote saveOk activeStore 1 1).1 1, mov.Id = 1 :=
  ⟨by decide, by decide, by decide,
    C5_getUserVotes_after_addVote saveOk activeStore 1 1 (by decide)⟩

/-- C6: when no user has identifier `u`, or no movie has identifier `m`, or the
stored movie `m` has its removed flag set, `AddVote u m` returns an error and
the state it leaves is the state it was given; the outcome is the same whatever
`save` would do, so persistence is not consulted. -/
theorem C6_addVote_rejected_leaves_state (j : jsonConnector) (u m : Int)
    (h : (∀ usr ∈ j.Users, usr.Id ≠ u) ∨ (∀ r ∈ j.Movies, r.Id ≠ m) ∨
      (∃ r, storedMovie j m = some r ∧ r.Removed = true)) :
    ∃ e, (e.kind = ErrorKind.NotFound ∨ e.kind = ErrorKind.InvalidState) ∧
      ∀ save : SaveFn, AddVote save j u m = (j, some e) := by
  cases hu : findUser j u with
  | none => exact ⟨.userNotFound u, Or.inl rfl, fun save => by simp [AddVote, hu]⟩
  | some usr =>
    cases hm : findMovie j m with
    | none => exact ⟨.movieNotFound m, Or.inl rfl, fun save => by simp [AddVote, hu, hm]⟩
    | some movie =>
      have hw : movie.Watched.isSome = false := by
        rw [findMovie_watched j m movie hm]; rfl
      rcases h with h | h | ⟨r, hr, hrem⟩
      · have hmem := List.mem_of_find?_eq_some hu
        have hid := List.find?_some hu
        exact absurd (by simpa using hid) (h usr hmem)
      · unfold findMovie at hm
        split at hm
        · rename_i r hfind
          have hmem := List.mem_of_find?_eq_some hfind
          have hid := List.find?_some hfind
          exact absurd (by simpa using hid) (h r hmem)
        · simp at hm
      · obtain ⟨mov, hmov, hflag⟩ := findMovie_removed j m r hr
        rw [hm] at hmov
        simp only [Option.some.injEq] at hmov
        subst hmov
        rw [hrem] at hflag
        exact ⟨.movieRemoved, Or.inr rfl, fun save => by simp [AddVote, hu, hm, hw, hflag]⟩

/-- Witness of C6: a vote for the removed movie of `removedStore`. -/
theorem C6_addVote_rejected_leaves_state_witness :
    ∃ e, (e.kind = ErrorKind.NotFound ∨ e.kind = ErrorKind.InvalidState) ∧
      ∀ save : SaveFn, AddVote save removedStore 1 1 = (removedStore, some e) :=
  C6_addVote_rejected_leaves_state removedStore 1 1
    (Or.inr (Or.inr ⟨mkJsonMovie 1 "Alien" true none, by decide, by decide⟩))

/-- C7: when user `u` exists and the stored movie `m` exists, is not removed and
is not watched, `AddVote u m` leaves the state with the vote table extended by
exactly the vote `(u, m, c)`, `c` being the current cycle's identifier or 0 when
there is no current cycle, and every other component as it was; the returned
error is that of `save`. No condition on the existing votes is involved. -/
theorem C7_addVote_appends_vote (save : SaveFn) (j : jsonConnector) (u m : Int)
    (r : jsonMovie) (hu : ∃ usr ∈ j.Users, usr.Id = u) (hr : storedMovie j m = some r)
    (hrem : r.Removed = false) (_hw : r.Watched = none) :
    AddVote save j u m =
      ({ j with Votes := j.Votes ++ [{ UserId := u, MovieId := m, CycleId := currentCycleId j }] },
        save { j with
          Votes := j.Votes ++ [{ UserId := u, MovieId := m, CycleId := currentCycleId j }] }) := by
  obtain ⟨mov, hmov, hflag⟩ := findMovie_removed j m r hr
  have hw : mov.Watched.isSome = false := by
    rw [findMovie_watched j m mov hmov]; rfl
  cases hfu : findUser j u with
  | none =>
    obtain ⟨usr, hmem, hid⟩ := hu
    have := List.find?_eq_none.mp hfu usr hmem
    simp [hid] at this
  | some usr =>
    rw [hrem] at hflag
    unfold AddVote
    simp only [hfu, hmov, hw, hflag, Bool.false_eq_true, if_false, currentCycle_id_eq]

/-- Witness of C7: user 1 votes again for movie 1, for which a vote of that user
is already stored; a second, equal vote is appended. -/
theorem C7_addVote_appends_vote_witness :
    AddVote saveOk votedStore 1 1 =
      ({ votedStore with
          Votes := votedStore.Votes ++
            [{ UserId := 1, MovieId := 1, CycleId := currentCycleId votedStore }] },
        saveOk { votedStore with
          Votes := votedStore.Votes ++
            [{ UserId := 1, MovieId := 1, CycleId := currentCycleId votedStore }] }) :=
  C7_addVote_appends_vote saveOk votedStore 1 1 (mkJsonMovie 1 "Alien" false none)
    ⟨mkUser 1 "Ann", by decide, by decide⟩ (by decide) (by decide) (by decide)

/-- C8: for a key whose stored entry is of boolean kind, `GetCfgInt` returns 1
without error when the stored value is true and 0 without error when it is
false. -/
theorem C8_getCfgInt_of_bool (j : jsonConnector) (key : String) (b : Bool)
    (h : cfgLookup j key = some { Type_ := CVT_BOOL, Value := .bool b }) :
    GetCfgInt j key = .ret (if b = true then 1 else 0) none := by
  unfold GetCfgInt
  rw [h]
  cases b <;> simp [CVT_BOOL, CVT_STRING, CVT_INT]

/-- Witness of C8: the "Active" entry of a fresh store reads as 1. -/
theorem C8_getCfgInt_of_bool_witness :
    GetCfgInt freshStore "Active" = .ret (if true = true then 1 else 0) none :=
  C8_getCfgInt_of_bool freshStore "Active" true (by decide)

/-- C9 as stated fails: "2147483648" is a decimal integer literal, stored as a
string, and `GetCfgInt` answers with a parse (range) error instead of the
integer, because the parse is limited to 32 bits. -/
theorem C9_getCfgInt_rejects_large_literal :
    cfgLookup (limitStore "2147483648") "Limit"
        = some { Type_ := CVT_STRING, Value := .str "2147483648" } ∧
      isDecimalLiteral "2147483648" = true ∧
      decimalValue "2147483648" = 2147483648 ∧
      GetCfgInt (limitStore "2147483648") "Limit" = .ret 0 (some (.intParse .rangeErr)) ∧
      GetCfgInt (limitStore "2147483648") "Limit" ≠ .ret (decimalValue "2147483648") none := by
  refine ⟨by decide, by decide, by decide, by decide, by decide⟩

/-- C9 (amended): for a key stored as a string, `GetCfgInt` returns the integer
the string denotes, without error, when the string is a decimal integer literal
whose value lies in the signed 32-bit range; for every other stored string (not
a decimal integer literal, or one outside that range) it returns 0 with a parse
error. -/
theorem C9_getCfgInt_of_string (j : jsonConnector) (key s : String)
    (h : cfgLookup j key = some { Type_ := CVT_STRING, Value := .str s }) :
    ((isDecimalLiteral s = true ∧ -(2 : Int) ^ 31 ≤ decimalValue s ∧
        decimalValue s ≤ 2 ^ 31 - 1) →
      GetCfgInt j key = .ret (decimalValue s) none) ∧
    (¬(isDecimalLiteral s = true ∧ -(2 : Int) ^ 31 ≤ decimalValue s ∧
        decimalValue s ≤ 2 ^ 31 - 1) →
      ∃ e, GetCfgInt j key = .ret 0 (some (.intParse e))) := by
  constructor
  · rintro ⟨hl, hlo, hhi⟩
    unfold GetCfgInt
    rw [h]
    simp [CVT_STRING, ParseInt32_of_literal s hl hlo hhi]
  · intro hn
    obtain ⟨e, he⟩ := ParseInt32_of_nonliteral s hn
    refine ⟨e, ?_⟩
    unfold GetCfgInt
    rw [h]
    simp [CVT_STRING, he]

/-- Witness of C9 (amended): the stored string "-42" reads as -42, and the
stored string "4x2" as a parse error. -/
theorem C9_getCfgInt_of_string_witness :
    GetCfgInt (limitStore "-42") "Limit" = .ret (decimalValue "-42") none ∧
      decimalValue "-42" = -42 ∧
      ∃ e, GetCfgInt (limitStore "4x2") "Limit" = .ret 0 (some (.intParse e)) :=
  ⟨(C9_getCfgInt_of_string (limitStore "-42") "Limit" "-42" (by decide)).1
      ⟨by decide, by decide, by decide⟩,
    by decide,
    (C9_getCfgInt_of_string (limitStore "4x2") "Limit" "4x2" (by decide)).2 (by decide)⟩

/-- C11: `DeleteCfgKey k` returns whatever `save` returns, hence no error when
persistence succeeds, whether or not `k` was present; afterwards `GetCfgString`,
`GetCfgInt` and `GetCfgBool` on `k` all fail with the key-does-not-exist error,
the entry of every other key is unchanged, and so is every table. -/
theorem C11_deleteCfgKey_removes_key (save : SaveFn) (j : jsonConnector) (k : String) :
    (save (DeleteCfgKey save j k).1 = none → (DeleteCfgKey save j k).2 = none) ∧
      GetCfgString (DeleteCfgKey save j k).1 k = .ret "" (some (.settingMissing k)) ∧
      GetCfgInt (DeleteCfgKey save j k).1 k = .ret 0 (some (.settingMissing k)) ∧
      GetCfgBool (DeleteCfgKey save j k).1 k = .ret false (some (.settingMissing k)) ∧
      (∀ k2 : String, k2 ≠ k → cfgLookup (DeleteCfgKey save j k).1 k2 = cfgLookup j k2) ∧
      (DeleteCfgKey save j k).1 = { j with Settings := (DeleteCfgKey save j k).1.Settings } := by
  have hk : cfgLookup (DeleteCfgKey save j k).1 k = none := by
    unfold cfgLookup DeleteCfgKey
    cases j.Settings <;> simp [lookup_filter_self]
  refine ⟨fun h => h, ?_, ?_, ?_, ?_, rfl⟩
  · unfold GetCfgString; rw [hk]
  · unfold GetCfgInt; rw [hk]
  · unfold GetCfgBool; rw [hk]
  · intro k2 hk2
    unfold cfgLookup DeleteCfgKey
    cases j.Settings <;> simp [lookup_filter_ne k k2 hk2]

/-- Witness of C11: deleting the present key "Active" and the absent key "Other"
of a fresh store, with a successful save. -/
theorem C11_deleteCfgKey_removes_key_witness :
    (DeleteCfgKey saveOk freshStore "Active").2 = none ∧
      (DeleteCfgKey saveOk freshStore "Other").2 = none ∧
      GetCfgBool (DeleteCfgKey saveOk freshStore "Active").1 "Active"
        = .ret false (some (.settingMissing "Active")) ∧
      cfgLookup (DeleteCfgKey saveOk freshStore "Other").1 "Active"
        = cfgLookup freshStore "Active" :=
  ⟨(C11_deleteCfgKey_removes_key saveOk freshStore "Active").1 rfl,
    (C11_deleteCfgKey_removes_key saveOk freshStore "Other").1 rfl,
    (C11_deleteCfgKey_removes_key saveOk freshStore "Active").2.2.2.1,
    (C11_deleteCfgKey_removes_key saveOk freshStore "Other").2.2.2.2.1 "Active" (by decide)⟩

/-- C13 as stated fails, in two ways. In a store whose only cycle, movie and user
carry the identifier -5 the tables are not empty and their maximum identifier
is -5, yet the three scans return 1, not -5 + 1: they start from 0. In a store
whose only cycle, movie and user carry the largest machine integer, `highest + 1`
wraps and the three scans return the smallest machine integer, which is neither
at least 1 nor greater than the stored identifier. -/
theorem C13_nextId_ignores_nonpositive_ids :
    negativeIdStore.Cycles.map (fun c => c.Id) = [-5] ∧
      negativeIdStore.Movies.map (fun m => m.Id) = [-5] ∧
      negativeIdStore.Users.map (fun u => u.Id) = [-5] ∧
      nextCycleId negativeIdStore = 1 ∧ nextMovieId negativeIdStore = 1 ∧
      nextUserId negativeIdStore = 1 ∧
      nextCycleId negativeIdStore ≠ -5 + 1 ∧ nextMovieId negativeIdStore ≠ -5 + 1 ∧
      nextUserId negativeIdStore ≠ -5 + 1 ∧
      maxIdStore.Cycles.map (fun c => c.Id) = [9223372036854775807] ∧
      nextCycleId maxIdStore = -9223372036854775808 ∧
      nextMovieId maxIdStore = -9223372036854775808 ∧
      nextUserId maxIdStore = -9223372036854775808 := by
  refine ⟨by decide, by decide, by decide, by decide, by decide, by decide, by decide,
    by decide, by decide, by decide, by decide, by decide, by decide⟩

/-- C13 (amended): for a table none of whose identifiers is the largest machine
integer, `nextCycleId`, `nextMovieId` and `nextUserId` each return 1 when the
table holds no identifier above 0 (in particular when it is empty) and otherwise
the maximum identifier in the table plus one; the result is then at least 1 and
strictly greater than every identifier in the table. -/
theorem C13_nextId_contract (j : jsonConnector) :
    ((∀ c ∈ j.Cycles, c.Id < maxInt) →
        NextIdSpec (j.Cycles.map (fun c => c.Id)) (nextCycleId j)) ∧
      ((∀ m ∈ j.Movies, m.Id < maxInt) →
        NextIdSpec (j.Movies.map (fun m => m.Id)) (nextMovieId j)) ∧
      ((∀ u ∈ j.Users, u.Id < maxInt) →
        NextIdSpec (j.Users.map (fun u => u.Id)) (nextUserId j)) ∧
      (j.Cycles = [] → nextCycleId j = 1) ∧ (j.Movies = [] → nextMovieId j = 1) ∧
      (j.Users = [] → nextUserId j = 1) := by
  refine ⟨nextIdSpec_of_scan (fun c : Cycle => c.Id) j.Cycles,
    nextIdSpec_of_scan (fun m : jsonMovie => m.Id) j.Movies,
    nextIdSpec_of_scan (fun u : User => u.Id) j.Users, ?_, ?_, ?_⟩
  · intro h; rw [nextCycleId, h]; rfl
  · intro h; rw [nextMovieId, h]; rfl
  · intro h; rw [nextUserId, h]; rfl

/-- Witness of C13 (amended): in `cycleStore` (cycles 1 and 2) the next cycle
identifier is 3, one above the greatest; in a fresh store it is 1. -/
theorem C13_nextId_contract_witness :
    (nextCycleId cycleStore - 1 ∈ cycleStore.Cycles.map (fun c => c.Id) ∧
        ∀ i ∈ cycleStore.Cycles.map (fun c => c.Id), i ≤ nextCycleId cycleStore - 1) ∧
      nextCycleId cycleStore = 3 ∧ nextMovieId freshStore = 1 :=
  ⟨((C13_nextId_contract cycleStore).1 (by decide)).2.1 ⟨1, by decide, by decide⟩, by decide,
    (C13_nextId_contract freshStore).2.2.2.2.1 rfl⟩

/-- C14 as stated fails: in a store whose cycle table holds the smallest and the
largest machine integer as identifiers, `highest + 1` wraps and `AddCycle`
returns the smallest machine integer, an identifier a stored cycle already
carries: the identifier is not fresh. -/
theorem C14_addCycle_reuses_id_after_wrap :
    wrapIdStore.Cycles.map (fun c => c.Id) = [-9223372036854775808, 9223372036854775807] ∧
      (AddCycle saveOk 7 wrapIdStore none).2.1 = -9223372036854775808 ∧
      (AddCycle saveOk 7 wrapIdStore none).2.1 ∈ wrapIdStore.Cycles.map (fun c => c.Id) := by
  refine ⟨by decide, by decide, by decide⟩

/-- C14 (amended): `AddCycle end` appends exactly one cycle; its identifier is the
one returned, `nextCycleId` of the prior table, which exceeds every existing
identifier when none of them is the largest machine integer; its start is the
current time; with an end time supplied the cycle has that end time and its
ending-set flag is true, with none the flag is false; the existing cycles, the
current-cycle id and all other tables are unchanged. -/
theorem C14_addCycle_appends_cycle (save : SaveFn) (now : Time) (j : jsonConnector)
    (endTime : Option Time) :
    ∃ c : Cycle,
      (AddCycle save now j endTime).1 = { j with Cycles := j.Cycles ++ [c] } ∧
      (AddCycle save now j endTime).2.1 = c.Id ∧
      c.Id = nextCycleId j ∧
      ((∀ old ∈ j.Cycles, old.Id < maxInt) → ∀ old ∈ j.Cycles, old.Id < c.Id) ∧
      c.Start = now ∧
      (∀ t, endTime = some t → c.End = t ∧ c.EndingSet = true) ∧
      (endTime = none → c.EndingSet = false) ∧
      (AddCycle save now j endTime).1.CurrentCycle = j.CurrentCycle ∧
      (AddCycle save now j endTime).2.2 = save (AddCycle save now j endTime).1 := by
  cases endTime with
  | none =>
    exact ⟨{ Id := nextCycleId j, Start := now, End := zeroTime, EndingSet := false }, rfl, rfl,
      rfl, fun hb old h => nextCycleId_gt j hb old h, rfl, fun t h => (by cases h),
      fun _ => rfl, rfl, rfl⟩
  | some e =>
    exact ⟨{ Id := nextCycleId j, Start := now, End := e, EndingSet := true }, rfl, rfl,
      rfl, fun hb old h => nextCycleId_gt j hb old h, rfl,
      fun t h => (by cases h; exact ⟨rfl, rfl⟩), fun h => (by cases h), rfl, rfl⟩

/-- Witness of C14 (amended): adding a cycle ending at 9 at time 7 to
`cycleStore`, and an open-ended one; the new identifier 3 exceeds 1 and 2. -/
theorem C14_addCycle_appends_cycle_witness :
    (∃ c : Cycle, (AddCycle saveOk 7 cycleStore (some 9)).1.Cycles = cycleStore.Cycles ++ [c] ∧
        c.End = 9 ∧ c.EndingSet = true ∧ c.Start = 7 ∧
        ∀ old ∈ cycleStore.Cycles, old.Id < c.Id) ∧
      (∃ c : Cycle, (AddCycle saveOk 7 cycleStore none).1.Cycles = cycleStore.Cycles ++ [c] ∧
        c.EndingSet = false) ∧
      (AddCycle saveOk 7 cycleStore (some 9)).2.1 = 3 := by
  refine ⟨?_, ?_, by decide⟩
  · obtain ⟨c, h1, _, _, h4, h5, h6, _, _, _⟩ :=
      C14_addCycle_appends_cycle saveOk 7 cycleStore (some 9)
    exact ⟨c, by rw [h1], (h6 9 rfl).1, (h6 9 rfl).2, h5, h4 (by decide)⟩
  · obtain ⟨c, h1, _, _, _, _, _, h7, _, _⟩ :=
      C14_addCycle_appends_cycle saveOk 7 cycleStore none
    exact ⟨c, by rw [h1], h7 rfl⟩

/-- C15 as stated fails: `AddOldCycle` writes the new identifier through the
caller's pointer, so when the cycle passed is one already stored (here the cycle
stored by a first call, reading identifier 1), the stored cycle is changed: it
reads identifier 2 afterwards. -/
theorem C15_addOldCycle_changes_stored_cycle :
    (AddOldCyclePtr { objs := [mkCycle 7], table := [] } 0).1.cycles = [{ mkCycle 7 with Id := 1 }] ∧
      (AddOldCyclePtr (AddOldCyclePtr { objs := [mkCycle 7], table := [] } 0).1 0).1.cycles.take 1
        = [{ mkCycle 7 with Id := 2 }] ∧
      (AddOldCyclePtr (AddOldCyclePtr { objs := [mkCycle 7], table := [] } 0).1 0).1.cycles.take 1
        ≠ (AddOldCyclePtr { objs := [mkCycle 7], table := [] } 0).1.cycles := by
  refine ⟨by decide, by decide, by decide⟩

/-- C15 (amended): for a cycle record `c` of its own, not one already stored,
`AddOldCycle c` appends one cycle whose start, end and ending-set flag are those
of `c` and whose identifier is `nextCycleId` of the prior table, whatever
identifier `c` carried; that identifier is returned (it exceeds every existing
one when none of them is the largest machine integer), and the existing cycles
and all other tables are unchanged. This is what the pointer-level operation
does on a pointer that is not in the table. -/
theorem C15_addOldCycle_reassigns_id (save : SaveFn) (j : jsonConnector) (c : Cycle) :
    (AddOldCycle save j c).1 =
        { j with Cycles := j.Cycles ++
          [{ Id := nextCycleId j, Start := c.Start, End := c.End, EndingSet := c.EndingSet }] } ∧
      (AddOldCycle save j c).2.1 = nextCycleId j ∧
      ((∀ old ∈ j.Cycles, old.Id < maxInt) →
        ∀ old ∈ j.Cycles, old.Id < (AddOldCycle save j c).2.1) ∧
      (AddOldCycle save j c).2.2 = save (AddOldCycle save j c).1 ∧
      (∀ (h : CycleHeap) (p : Nat), h.objs[p]? = some c → p ∉ h.table →
        (AddOldCyclePtr h p).1.cycles = h.cycles ++
          [{ Id := h.nextCycleId, Start := c.Start, End := c.End, EndingSet := c.EndingSet }] ∧
        (AddOldCyclePtr h p).2 = h.nextCycleId) :=
  ⟨rfl, rfl, fun hb old h => nextCycleId_gt j hb old h, rfl,
    fun h p ho hp => addOldCyclePtr_fresh h p c ho hp⟩

/-- Witness of C15 (amended): importing a cycle that carries identifier 1 into
`cycleStore`, which already holds cycles 1 and 2, stores it under identifier 3;
a cycle that is not in the table yet is appended under identifier 1. -/
theorem C15_addOldCycle_reassigns_id_witness :
    (AddOldCycle saveOk cycleStore (mkCycle 1)).2.1 = 3 ∧
      (∀ old ∈ cycleStore.Cycles, old.Id < (AddOldCycle saveOk cycleStore (mkCycle 1)).2.1) ∧
      (AddOldCyclePtr { objs := [mkCycle 7], table := [] } 0).2 = 1 :=
  ⟨by decide, (C15_addOldCycle_reassigns_id saveOk cycleStore (mkCycle 1)).2.2.1 (by decide),
    ((C15_addOldCycle_reassigns_id saveOk cycleStore (mkCycle 7)).2.2.2.2
      { objs := [mkCycle 7], table := [] } 0 (by decide) (by decide)).2⟩

/-- C16: `GetCurrentCycle` returns a cycle exactly when some stored cycle has the
stored current-cycle id; the cycle returned is a stored one with that id; it
returns none when no stored cycle has that id, in particular when the
current-cycle id is 0 and all cycle identifiers are positive. -/
theorem C16_getCurrentCycle_characterised (j : jsonConnector) :
    ((∃ c, GetCurrentCycle j = some c) ↔ ∃ c ∈ j.Cycles, c.Id = j.CurrentCycle) ∧
      (∀ c, GetCurrentCycle j = some c → c ∈ j.Cycles ∧ c.Id = j.CurrentCycle) ∧
      ((∀ c ∈ j.Cycles, c.Id ≠ j.CurrentCycle) → GetCurrentCycle j = none) ∧
      (j.CurrentCycle = 0 → (∀ c ∈ j.Cycles, 0 < c.Id) → GetCurrentCycle j = none) := by
  have hsome : ∀ c, GetCurrentCycle j = some c → c ∈ j.Cycles ∧ c.Id = j.CurrentCycle := by
    intro c hc
    unfold GetCurrentCycle currentCycle at hc
    refine ⟨List.mem_of_find?_eq_some hc, ?_⟩
    have := List.find?_some hc
    simp only [beq_iff_eq] at this
    exact this.symm
  have hnone : (∀ c ∈ j.Cycles, c.Id ≠ j.CurrentCycle) → GetCurrentCycle j = none := by
    intro hall
    unfold GetCurrentCycle currentCycle
    rw [List.find?_eq_none]
    intro c hc
    simpa using fun h : j.CurrentCycle = c.Id => hall c hc h.symm
  refine ⟨⟨?_, ?_⟩, hsome, hnone, ?_⟩
  · rintro ⟨c, hc⟩
    exact ⟨c, hsome c hc⟩
  · rintro ⟨c, hc, hid⟩
    cases hg : GetCurrentCycle j with
    | some d => exact ⟨d, rfl⟩
    | none =>
      unfold GetCurrentCycle currentCycle at hg
      have := List.find?_eq_none.mp hg c hc
      simp [hid] at this
  · intro h0 hpos
    apply hnone
    intro c hc
    have := hpos c hc
    omega

/-- Witness of C16: in `cycleStore` the current cycle is cycle 2; in a store
holding only cycle 1 with current-cycle id 0 there is none. -/
theorem C16_getCurrentCycle_characterised_witness :
    (∃ c, GetCurrentCycle cycleStore = some c) ∧
      GetCurrentCycle { freshStore with Cycles := [mkCycle 1] } = none :=
  ⟨(C16_getCurrentCycle_characterised cycleStore).1.2 ⟨mkCycle 2, by decide, by decide⟩,
    (C16_getCurrentCycle_characterised { freshStore with Cycles := [mkCycle 1] }).2.2.2 rfl
      (by decide)⟩

/-- C17: `GetMovie id` fails with its NotFound error exactly when no movie record
has that identifier, and otherwise succeeds; when it succeeds the result has
that identifier and the name, description, links, poster, removed and approved
flags of the first record with it, its cycle-added reference is the stored cycle
with the record's cycle-added id (none if there is none), and its vote list has
one entry, in table order, for each stored vote whose movie id is `id`, carrying
that vote's resolved cycle and user. -/
theorem C17_getMovie_resolves_record (j : jsonConnector) (id : Int) :
    (GetMovie j id = (none, some (.movieWithIdNotFound id)) ↔ ∀ r ∈ j.Movies, r.Id ≠ id) ∧
      (StoreError.movieWithIdNotFound id).kind = ErrorKind.NotFound ∧
      ((∃ r ∈ j.Movies, r.Id = id) → ∃ mov, GetMovie j id = (some mov, none)) ∧
      (∀ mov, (GetMovie j id).1 = some mov →
        (GetMovie j id).2 = none ∧
        ∃ r ∈ j.Movies, storedMovie j id = some r ∧ r.Id = id ∧
          mov.Id = id ∧ mov.Name = r.Name ∧ mov.Description = r.Description ∧
          mov.Links = r.Links ∧ mov.Poster = r.Poster ∧ mov.Removed = r.Removed ∧
          mov.Approved = r.Approved ∧
          mov.CycleAdded = j.Cycles.find? (fun c => c.Id == r.CycleAddedId) ∧
          mov.Votes = (j.Votes.filter (fun v => v.MovieId == id)).map (fun v =>
            { MovieId := id
              CycleAdded := j.Cycles.find? (fun c => c.Id == v.CycleId)
              User := j.Users.find? (fun u => u.Id == v.UserId) })) := by
  cases hs : storedMovie j id with
  | none =>
    have habs : ∀ r ∈ j.Movies, r.Id ≠ id := by
      intro r hr
      have := List.find?_eq_none.mp hs r hr
      simpa using this
    rw [getMovie_of_absent j id hs]
    refine ⟨⟨fun _ => habs, fun _ => rfl⟩, rfl, ?_, ?_⟩
    · rintro ⟨r, hr, hid⟩
      exact absurd hid (habs r hr)
    · intro mov hmov
      simp at hmov
  | some r =>
    have hmem : r ∈ j.Movies := List.mem_of_find?_eq_some hs
    have hid : r.Id = id := by
      have := List.find?_some hs
      simpa using this
    rw [getMovie_of_stored j id r hs]
    refine ⟨⟨fun h => by simp at h, fun h => absurd hid (h r hmem)⟩, rfl,
      fun _ => ⟨_, rfl⟩, ?_⟩
    intro mov hmov
    simp only [Option.some.injEq] at hmov
    subst hmov
    refine ⟨rfl, r, hmem, rfl, hid, hid, rfl, rfl, rfl, rfl, rfl, rfl, rfl, ?_⟩
    rw [← hid]
    exact resolveMovie_votes j r

/-- Witness of C17: movie 1 of `cycleStore` resolves, movie 9 is not found. -/
theorem C17_getMovie_resolves_record_witness :
    (∃ mov, GetMovie cycleStore 1 = (some mov, none)) ∧
      GetMovie cycleStore 9 = (none, some (.movieWithIdNotFound 9)) :=
  ⟨(C17_getMovie_resolves_record cycleStore 1).2.2.1
      ⟨mkJsonMovie 1 "Alien" false none, by decide, by decide⟩,
    (C17_getMovie_resolves_record cycleStore 9).1.2 (by decide)⟩

/-- C18: in a store whose movie identifiers are pairwise distinct,
`GetActiveMovies` returns, in table order, the resolved form of each stored movie
whose watched timestamp is absent, that form being what `GetMovie` returns for
the movie's identifier, and no movie whose watched timestamp is set. -/
theorem C18_getActiveMovies_unwatched (j : jsonConnector)
    (hd : (j.Movies.map (fun m => m.Id)).Nodup) :
    GetActiveMovies j = (j.Movies.filter (fun m => m.Watched.isNone)).map (resolveMovie j) ∧
      (∀ m ∈ j.Movies, GetMovie j m.Id = (some (resolveMovie j m), none)) ∧
      (∀ mov ∈ GetActiveMovies j, ∀ m ∈ j.Movies, m.Watched.isSome = true → mov.Id ≠ m.Id) := by
  have hget : ∀ m ∈ j.Movies, GetMovie j m.Id = (some (resolveMovie j m), none) :=
    fun m hm => getMovie_of_stored j m.Id m (storedMovie_of_nodup j hd m hm)
  have hlist : GetActiveMovies j
      = (j.Movies.filter (fun m => m.Watched.isNone)).map (resolveMovie j) := by
    unfold GetActiveMovies
    rw [← filterMap_ite_eq_map_filter]
    apply List.filterMap_congr
    intro m hm
    rw [hget m hm]
  refine ⟨hlist, hget, ?_⟩
  intro mov hmov m hm hw heq
  rw [hlist, List.mem_map] at hmov
  obtain ⟨m2, hm2, rfl⟩ := hmov
  rw [List.mem_filter] at hm2
  have hsame : m2 = m := List.inj_on_of_nodup_map hd hm2.1 hm heq
  subst hsame
  have h2 := hm2.2
  cases hwm : m2.Watched <;> simp [hwm] at hw h2

/-- Witness of C18: of the two movies of `cycleStore` only movie 1, which has not
been watched, is returned. -/
theorem C18_getActiveMovies_unwatched_witness :
    GetActiveMovies cycleStore
        = (cycleStore.Movies.filter (fun m => m.Watched.isNone)).map (resolveMovie cycleStore) ∧
      (GetActiveMovies cycleStore).map (fun mov => mov.Id) = [1] :=
  ⟨(C18_getActiveMovies_unwatched cycleStore (by decide)).1, by decide⟩

/-- C20: for any normalizer standing for `cleanMovieName`, `CheckMovieExists t` is
true exactly when some stored movie name has the same normalized form as `t`;
after `AddMovie` with name `n` it is true for every `t` that normalizes to the
same form as `n`; with the normalizer modelled from the specification, "The
Matrix" is found after adding "the   matrix". The check only reads the store. -/
theorem C20_checkMovieExists_normalized (clean : String → String) (j : jsonConnector)
    (t : String) :
    (CheckMovieExists clean j t = true ↔ ∃ r ∈ j.Movies, clean r.Name = clean t) ∧
      (∀ (save : SaveFn) (movie : Movie), clean t = clean movie.Name →
        CheckMovieExists clean (AddMovie save j movie).1 t = true) ∧
      (∀ (save : SaveFn) (movie : Movie), movie.Name = "the   matrix" →
        CheckMovieExists cleanMovieName (AddMovie save j movie).1 "The Matrix" = true) := by
  refine ⟨checkMovieExists_iff clean j t,
    fun save movie h => checkMovieExists_after_addMovie clean save j movie t h, ?_⟩
  intro save movie hname
  apply checkMovieExists_after_addMovie
  rw [hname]
  decide

/-- Witness of C20: "ALIEN!" is found in `cycleStore`, which holds "Alien", and
"The Matrix" is found in a fresh store after adding "the   matrix". -/
theorem C20_checkMovieExists_normalized_witness :
    CheckMovieExists cleanMovieName cycleStore "ALIEN!" = true ∧
      CheckMovieExists cleanMovieName
        (AddMovie saveOk freshStore (mkMovie 0 "the   matrix")).1 "The Matrix" = true ∧
      CheckMovieExists cleanMovieName
        (AddMovie saveOk freshStore (mkMovie 0 "the   matrix")).1 "Matrix" = false :=
  ⟨(C20_checkMovieExists_normalized cleanMovieName cycleStore "ALIEN!").1.2
      ⟨mkJsonMovie 1 "Alien" false none, by decide, by decide⟩,
    (C20_checkMovieExists_normalized cleanMovieName freshStore "The Matrix").2.2 saveOk
      (mkMovie 0 "the   matrix") rfl,
    by decide⟩

/-- C21: on inputs that pass validation, when `save` fails with `e` on the mutated
state, each of `AddMovie`, `AddUser`, `AddVote`, `AddCycle`, `AddOldCycle` and
the three setters returns `e` and leaves the mutated state, with the new record
or setting present: the very state the call leaves, without error, when `save`
succeeds. Validation is read off the tables: `AddUser` needs that no stored user
has the identifier or the lower-cased name of the new user, `AddVote` that the
user exists and the stored movie exists and is not removed, the setters that the
settings map is allocated; the other three always pass. -/
theorem C21_save_failure_keeps_mutation (lower : String → String) (save : SaveFn)
    (j : jsonConnector) (e : StoreError) :
    (∀ movie, save { j with Movies := j.Movies ++ [newJsonMovie j movie] } = some e →
        AddMovie save j movie
          = ({ j with Movies := j.Movies ++ [newJsonMovie j movie] }, nextMovieId j, some e) ∧
        AddMovie saveOk j movie
          = ({ j with Movies := j.Movies ++ [newJsonMovie j movie] }, nextMovieId j, none)) ∧
      (∀ user, (∀ u ∈ j.Users, u.Id ≠ user.Id ∧ lower u.Name ≠ lower user.Name) →
        save { j with Users := j.Users ++ [{ user with Id := nextUserId j }] } = some e →
        AddUser lower save j user
          = ({ j with Users := j.Users ++ [{ user with Id := nextUserId j }] }, nextUserId j,
              some e) ∧
        AddUser lower saveOk j user
          = ({ j with Users := j.Users ++ [{ user with Id := nextUserId j }] }, nextUserId j,
              none)) ∧
      (∀ u m r, (∃ usr ∈ j.Users, usr.Id = u) → storedMovie j m = some r → r.Removed = false →
        save { j with
          Votes := j.Votes ++ [{ UserId := u, MovieId := m, CycleId := currentCycleId j }] }
            = some e →
        AddVote save j u m
          = ({ j with
                Votes := j.Votes ++ [{ UserId := u, MovieId := m, CycleId := currentCycleId j }] },
              some e) ∧
        AddVote saveOk j u m
          = ({ j with
                Votes := j.Votes ++ [{ UserId := u, MovieId := m, CycleId := currentCycleId j }] },
              none)) ∧
      (∀ now endTime,
        save { j with
          Cycles := j.Cycles ++
            [{ Id := nextCycleId j, Start := now, End := endTime.getD zeroTime,
               EndingSet := endTime.isSome }] } = some e →
        AddCycle save now j endTime
          = ({ j with
                Cycles := j.Cycles ++
                  [{ Id := nextCycleId j, Start := now, End := endTime.getD zeroTime,
                     EndingSet := endTime.isSome }] }, nextCycleId j, some e) ∧
        AddCycle saveOk now j endTime
          = ({ j with
                Cycles := j.Cycles ++
                  [{ Id := nextCycleId j, Start := now, End := endTime.getD zeroTime,
                     EndingSet := endTime.isSome }] }, nextCycleId j, none)) ∧
      (∀ c, save { j with Cycles := j.Cycles ++ [{ c with Id := nextCycleId j }] } = some e →
        AddOldCycle save j c
          = ({ j with Cycles := j.Cycles ++ [{ c with Id := nextCycleId j }] }, nextCycleId j,
              some e) ∧
        AddOldCycle saveOk j c
          = ({ j with Cycles := j.Cycles ++ [{ c with Id := nextCycleId j }] }, nextCycleId j,
              none)) ∧
      (∀ entries k v, j.Settings = some entries →
        save { j with
          Settings := some ((k, { Type_ := CVT_STRING, Value := .str v }) ::
            entries.filter (fun p => p.1 != k)) } = some e →
        SetCfgString save j k v
          = .ret { j with
              Settings := some ((k, { Type_ := CVT_STRING, Value := .str v }) ::
                entries.filter (fun p => p.1 != k)) } (some e) ∧
        SetCfgString saveOk j k v
          = .ret { j with
              Settings := some ((k, { Type_ := CVT_STRING, Value := .str v }) ::
                entries.filter (fun p => p.1 != k)) } none) ∧
      (∀ entries k v, j.Settings = some entries →
        save { j with
          Settings := some ((k, { Type_ := CVT_INT, Value := .int v }) ::
            entries.filter (fun p => p.1 != k)) } = some e →
        SetCfgInt save j k v
          = .ret { j with
              Settings := some ((k, { Type_ := CVT_INT, Value := .int v }) ::
                entries.filter (fun p => p.1 != k)) } (some e) ∧
        SetCfgInt saveOk j k v
          = .ret { j with
              Settings := some ((k, { Type_ := CVT_INT, Value := .int v }) ::
                entries.filter (fun p => p.1 != k)) } none) ∧
      (∀ entries k v, j.Settings = some entries →
        save { j with
          Settings := some ((k, { Type_ := CVT_BOOL, Value := .bool v }) ::
            entries.filter (fun p => p.1 != k)) } = some e →
        SetCfgBool save j k v
          = .ret { j with
              Settings := some ((k, { Type_ := CVT_BOOL, Value := .bool v }) ::
                entries.filter (fun p => p.1 != k)) } (some e) ∧
        SetCfgBool saveOk j k v
          = .ret { j with
              Settings := some ((k, { Type_ := CVT_BOOL, Value := .bool v }) ::
                entries.filter (fun p => p.1 != k)) } none) := by
  refine ⟨?_, ?_, ?_, ?_, ?_, ?_, ?_, ?_⟩
  · intro movie hs
    refine ⟨?_, rfl⟩
    simp only [AddMovie]
    rw [hs]
    rfl
  · intro user hv hs
    have hscan := addUserScan_none_of lower user j.Users hv
    refine ⟨?_, (addUser_of_valid lower saveOk j user hscan).1⟩
    rw [(addUser_of_valid lower save j user hscan).1, hs]
  · intro u m r hu hr hrem hs
    have hvalid : (AddVote saveOk j u m).2 = none := by
      obtain ⟨mov, hmov, hflag⟩ := findMovie_removed j m r hr
      have hw : mov.Watched.isSome = false := by
        rw [findMovie_watched j m mov hmov]; rfl
      cases hfu : findUser j u with
      | none =>
        obtain ⟨usr, hmem, hid⟩ := hu
        have := List.find?_eq_none.mp hfu usr hmem
        simp [hid] at this
      | some usr =>
        rw [hrem] at hflag
        unfold AddVote
        simp only [hfu, hmov, hw, hflag, Bool.false_eq_true, if_false]
        rfl
    refine ⟨?_, addVote_of_valid saveOk j u m hvalid⟩
    rw [addVote_of_valid save j u m hvalid, hs]
  · intro now endTime hs
    cases endTime with
    | none =>
      refine ⟨?_, rfl⟩
      simp only [AddCycle]
      simp only [Option.getD_none, Option.isSome_none] at hs
      rw [hs]
      rfl
    | some t =>
      refine ⟨?_, rfl⟩
      simp only [AddCycle]
      simp only [Option.getD_some, Option.isSome_some] at hs
      rw [hs]
      rfl
  · intro c hs
    refine ⟨?_, rfl⟩
    simp only [AddOldCycle]
    rw [hs]
  · intro entries k v hset hs
    refine ⟨?_, by simp only [SetCfgString, cfgStore, hset]; rfl⟩
    simp only [SetCfgString, cfgStore, hset]
    rw [hs]
  · intro entries k v hset hs
    refine ⟨?_, by simp only [SetCfgInt, cfgStore, hset]; rfl⟩
    simp only [SetCfgInt, cfgStore, hset]
    rw [hs]
  · intro entries k v hset hs
    refine ⟨?_, by simp only [SetCfgBool, cfgStore, hset]; rfl⟩
    simp only [SetCfgBool, cfgStore, hset]
    rw [hs]

/-- Witness of C21: with a `save` that always fails, a user added to a fresh store
is still appended under identifier 1, an integer setting is still stored, a vote
of user 1 for movie 1 in `activeStore` is still appended and a movie added to a
fresh store is still appended; each call returns the error of `save`. -/
theorem C21_save_failure_keeps_mutation_witness :
    (AddUser asciiLower saveFail freshStore (mkUser 0 "Ann")
        = ({ freshStore with Users := [mkUser 1 "Ann"] }, 1,
            some (.io "Unable to write JSON data"))) ∧
      (SetCfgInt saveFail freshStore "Limit" 5
        = .ret { freshStore with
            Settings := some [("Limit", { Type_ := CVT_INT, Value := .int 5 }),
              ("Active", { Type_ := CVT_BOOL, Value := .bool true })] }
          (some (.io "Unable to write JSON data"))) ∧
      (AddVote saveFail activeStore 1 1
        = ({ activeStore with Votes := [{ UserId := 1, MovieId := 1, CycleId := 0 }] },
            some (.io "Unable to write JSON data"))) ∧
      (AddMovie saveFail freshStore (mkMovie 0 "Alien")
        = ({ freshStore with Movies := [newJsonMovie freshStore (mkMovie 0 "Alien")] }, 1,
            some (.io "Unable to write JSON data"))) :=
  ⟨((C21_save_failure_keeps_mutation asciiLower saveFail freshStore
      (.io "Unable to write JSON data")).2.1 (mkUser 0 "Ann") (by decide) rfl).1,
    ((C21_save_failure_keeps_mutation asciiLower saveFail freshStore
      (.io "Unable to write JSON data")).2.2.2.2.2.2.1
      [("Active", { Type_ := CVT_BOOL, Value := .bool true })] "Limit" 5 rfl rfl).1,
    ((C21_save_failure_keeps_mutation asciiLower saveFail activeStore
      (.io "Unable to write JSON data")).2.2.1 1 1 (mkJsonMovie 1 "Alien" false none)
      ⟨mkUser 1 "Ann", by decide, by decide⟩ (by decide) (by decide) rfl).1,
    ((C21_save_failure_keeps_mutation asciiLower saveFail freshStore
      (.io "Unable to write JSON data")).1 (mkMovie 0 "Alien") rfl).1⟩

/-- C24 (evaluation of the code): an integer-kind entry whose value is a
JSON-decoded number, the `float64` 5; `GetCfgInt` returns 5, but `GetCfgBool`
and `GetCfgString` assert a native `int` and hit a failed type assertion; the
same for the number 0, where `GetCfgBool` does not return false. -/
theorem C24_getters_panic_on_reloaded_int :
    cfgLookup (floatLimitStore 5) "Limit" = some { Type_ := CVT_INT, Value := .float64 5 } ∧
      GetCfgInt (floatLimitStore 5) "Limit" = .ret 5 none ∧
      GetCfgBool (floatLimitStore 5) "Limit" = .panic ∧
      GetCfgString (floatLimitStore 5) "Limit" = .panic ∧
      GetCfgBool (floatLimitStore 0) "Limit" = .panic := by
  refine ⟨by decide, by decide, by decide, by decide, by decide⟩

/-- C25 (evaluation of the code): in a store with users 1 and 2,
`GetUsers 0 1` returns both users and `GetUsers 0 0` returns one, because the
loop goes on while `len(ulist) <= count`. -/
theorem C25_getUsers_exceeds_count :
    (GetUsers twoUserStore 0 1).1.map (fun u => u.Id) = [1, 2] ∧
      (GetUsers twoUserStore 0 1).1.length = 2 ∧
      (GetUsers twoUserStore 0 0).1.length = 1 ∧
      (GetUsers twoUserStore 0 1).2 = none := by
  refine ⟨by decide, by decide, by decide, by decide⟩

/-- C26: in a store whose user names are distinct after lower-casing,
`UserLogin name hash` returns user `u` without error exactly when `u` is a
stored user whose lower-cased name is the lower-cased `name` and whose password
hash is `hash`; in every other case it returns no user and the one
invalid-credentials error, whether the name is unknown or the password wrong. -/
theorem C26_userLogin_characterised (lower : String → String) (j : jsonConnector)
    (name hash : String) (hd : (j.Users.map (fun u => lower u.Name)).Nodup) :
    (∀ u, UserLogin lower j name hash = (some u, none) ↔
        (u ∈ j.Users ∧ lower u.Name = lower name ∧ u.Password = hash)) ∧
      ((¬∃ u ∈ j.Users, lower u.Name = lower name ∧ u.Password = hash) →
        UserLogin lower j name hash = (none, some .invalidLogin)) := by
  unfold UserLogin
  constructor
  · intro u
    constructor
    · intro h
      rcases userLoginScan_cases lower (lower name) hash j.Users with ⟨v, hv, h1, h2, h3⟩ | h4
      · rw [h3] at h
        simp only [Prod.mk.injEq, Option.some.injEq, and_true] at h
        subst h
        exact ⟨hv, h1, h2⟩
      · rw [h4] at h
        simp at h
    · rintro ⟨hu, hn, hp⟩
      exact userLoginScan_of_mem lower (lower name) hash j.Users hd u hu hn hp
  · intro hno
    rcases userLoginScan_cases lower (lower name) hash j.Users with ⟨v, hv, h1, h2, _⟩ | h4
    · exact absurd ⟨v, hv, h1, h2⟩ hno
    · exact h4

/-- Witness of C26: in `twoUserStore`, "ANN" with hash "h1" logs in as user 1,
"ANN" with a wrong hash and the unknown "Eve" get the same error. -/
theorem C26_userLogin_characterised_witness :
    UserLogin asciiLower twoUserStore "ANN" "h1"
        = (some { mkUser 1 "Ann" with Password := "h1" }, none) ∧
      UserLogin asciiLower twoUserStore "ANN" "h2" = (none, some .invalidLogin) ∧
      UserLogin asciiLower twoUserStore "Eve" "h1" = (none, some .invalidLogin) :=
  ⟨((C26_userLogin_characterised asciiLower twoUserStore "ANN" "h1" (by decide)).1
      { mkUser 1 "Ann" with Password := "h1" }).2 ⟨by decide, by decide, by decide⟩,
    (C26_userLogin_characterised asciiLower twoUserStore "ANN" "h2" (by decide)).2 (by decide),
    (C26_userLogin_characterised asciiLower twoUserStore "Eve" "h1" (by decide)).2 (by decide)⟩

/-- C22 as stated fails, in two ways. `AddOldCycle` stores the caller's pointer
and writes the new identifier through it: starting from an empty cycle table,
two calls with the same cycle leave a table that holds that cycle twice, both
entries reading identifier 2, so cycle identifiers are not pairwise distinct.
And identifiers are machine integers: after 2^63 - 1 calls of `AddMovie` on a
fresh store one more call stores a movie under the identifier -2^63, which is
below 1. -/
theorem C22_addOldCycle_same_cycle_twice :
    (AddOldCyclePtr { objs := [mkCycle 7], table := [] } 0).1.cycles.map (fun c => c.Id) = [1] ∧
      (AddOldCyclePtr (AddOldCyclePtr { objs := [mkCycle 7], table := [] } 0).1 0).1.cycles.map
        (fun c => c.Id) = [2, 2] ∧
      ¬((AddOldCyclePtr (AddOldCyclePtr { objs := [mkCycle 7], table := [] } 0).1 0).1.cycles.map
        (fun c => c.Id)).Nodup ∧
      ¬StoreInv asciiLower (run asciiLower saveOk freshStore
        (List.replicate 9223372036854775807 (.addMovie (mkMovie 0 "Alien"))
          ++ [.addMovie (mkMovie 0 "Alien")])) := by
  refine ⟨by decide, by decide, by decide, ?_⟩
  intro hinv
  obtain ⟨m, hm, hid⟩ := addMovie_after_replicate asciiLower saveOk (mkMovie 0 "Alien")
    9223372036854775807 (by decide)
  have hpos := hinv.2.2.2.2.2.1 m hm
  have hwrap : wrapInt (((9223372036854775807 : Nat) : Int) + 1) = -9223372036854775808 := by
    decide
  rw [hwrap] at hid
  omega

/-- C22 (amended): in every state reached from a fresh store by a sequence of at
most 2^63 - 1 public operations in which each call receives records of its own
(no call of `AddOldCycle` is given a cycle that is already stored), user
identifiers are pairwise distinct, user names are pairwise distinct after
lower-casing, movie identifiers are pairwise distinct, cycle identifiers are
pairwise distinct, and every user, movie and cycle identifier is at least 1. On
a cycle that is not already stored the pointer-level `AddOldCycle` is the
by-value one. -/
theorem C22_reachable_store_invariant (lower : String → String) (save : SaveFn)
    (ops : List Op) (hlen : (ops.length : Int) ≤ maxInt) :
    StoreInv lower (run lower save freshStore ops) ∧
      (∀ (h : CycleHeap) (c : Nat) (o : Cycle), h.objs[c]? = some o → c ∉ h.table →
        (AddOldCyclePtr h c).1.cycles = h.cycles ++ [{ o with Id := h.nextCycleId }] ∧
        (AddOldCyclePtr h c).2 = h.nextCycleId) := by
  refine ⟨?_, addOldCyclePtr_fresh⟩
  apply run_keeps_storeInv lower save ops freshStore 0 (le_refl 0) (by omega)
  · refine ⟨by simp [freshStore], by simp [freshStore], by simp [freshStore],
      by simp [freshStore], ?_, ?_, ?_⟩ <;> intro x hx <;> simp [freshStore] at hx
  · refine ⟨?_, ?_, ?_⟩ <;> intro x hx <;> simp [freshStore] at hx

/-- Witness of C22 (amended): after two users differing only in case, the same
cycle record imported twice by value, a movie and a vote, the identifiers are
distinct; and a cycle that is not yet stored is appended under identifier 1. -/
theorem C22_reachable_store_invariant_witness :
    StoreInv asciiLower
        (run asciiLower saveOk freshStore
          [.addUser (mkUser 0 "Ann"), .addUser (mkUser 0 "ANN"), .addOldCycle (mkCycle 1),
            .addOldCycle (mkCycle 1), .addMovie (mkMovie 0 "Alien"), .addVote 1 1]) ∧
      ((run asciiLower saveOk freshStore
          [.addUser (mkUser 0 "Ann"), .addUser (mkUser 0 "ANN"), .addOldCycle (mkCycle 1),
            .addOldCycle (mkCycle 1), .addMovie (mkMovie 0 "Alien"), .addVote 1 1]).Cycles.map
        (fun c => c.Id)) = [1, 2] ∧
      (AddOldCyclePtr { objs := [mkCycle 7], table := [] } 0).1.cycles
        = [{ mkCycle 7 with Id := 1 }] :=
  ⟨(C22_reachable_store_invariant asciiLower saveOk _ (by decide)).1, by decide,
    ((C22_reachable_store_invariant asciiLower saveOk [] (by decide)).2
      { objs := [mkCycle 7], table := [] } 0 (mkCycle 7) (by decide) (by decide)).1⟩

/-- C27: every public operation leaves the current-cycle id as it was; so in
every state reached from a fresh store the current-cycle id is 0,
`GetCurrentCycle` returns none, also right after a further `AddCycle` or
`AddOldCycle`, and every stored movie and every stored vote is tagged with cycle
id 0. -/
theorem C27_current_cycle_never_assigned (lower : String → String) (save : SaveFn)
    (ops : List Op) :
    (∀ j op, (step lower save j op).CurrentCycle = j.CurrentCycle) ∧
      (run lower save freshStore ops).CurrentCycle = 0 ∧
      GetCurrentCycle (run lower save freshStore ops) = none ∧
      (∀ now endTime,
        GetCurrentCycle (AddCycle save now (run lower save freshStore ops) endTime).1 = none) ∧
      (∀ c, GetCurrentCycle (AddOldCycle save (run lower save freshStore ops) c).1 = none) ∧
      (∀ m ∈ (run lower save freshStore ops).Movies, m.CycleAddedId = 0) ∧
      (∀ v ∈ (run lower save freshStore ops).Votes, v.CycleId = 0) := by
  have hfresh : NoCurrentCycle freshStore := by
    refine ⟨rfl, ?_, ?_, ?_⟩ <;> intro x hx <;> simp [freshStore] at hx
  have hrun : NoCurrentCycle (run lower save freshStore ops) :=
    run_keeps lower save NoCurrentCycle (step_keeps_noCurrent lower save) ops freshStore hfresh
  refine ⟨step_currentCycle lower save, hrun.1, currentCycle_none_of_noCurrent _ hrun, ?_, ?_,
    hrun.2.2.1, hrun.2.2.2⟩
  · intro now endTime
    exact currentCycle_none_of_noCurrent _
      (step_keeps_noCurrent lower save _ (.addCycle now endTime) hrun)
  · intro c
    exact currentCycle_none_of_noCurrent _
      (step_keeps_noCurrent lower save _ (.addOldCycle c) hrun)

/-- Witness of C27: after adding a cycle, a user, a movie and a vote to a fresh
store there is still no current cycle, and the movie and the vote carry cycle
id 0. -/
theorem C27_current_cycle_never_assigned_witness :
    GetCurrentCycle
        (run asciiLower saveOk freshStore
          [.addCycle 7 none, .addUser (mkUser 0 "Ann"), .addMovie (mkMovie 0 "Alien"),
            .addVote 1 1]) = none ∧
      (run asciiLower saveOk freshStore
          [.addCycle 7 none, .addUser (mkUser 0 "Ann"), .addMovie (mkMovie 0 "Alien"),
            .addVote 1 1]).Votes = [{ UserId := 1, MovieId := 1, CycleId := 0 }] ∧
      ∀ m ∈ (run asciiLower saveOk freshStore
          [.addCycle 7 none, .addUser (mkUser 0 "Ann"), .addMovie (mkMovie 0 "Alien"),
            .addVote 1 1]).Movies, m.CycleAddedId = 0 :=
  ⟨(C27_current_cycle_never_assigned asciiLower saveOk _).2.2.1, by decide,
    (C27_current_cycle_never_assigned asciiLower saveOk _).2.2.2.2.2.1⟩

end moviepoll
